import Mathlib

/-!
Shallow embedding of the bsnes-hd PPU background/object HD-pack subsystem
(`sfc/ppu/background.cpp`, `sfc/ppu/object.cpp`) and of the minimal PNG
encoder (`nall/encode/png.hpp`), together with proofs about the embedded
operations.

Machine integers are embedded as `Nat` with explicit `% 2^w` where the C
code can overflow; C `&`, `|`, `^`, `<<`, `>>` become `&&&`, `|||`, `^^^`,
`<<<`, `>>>`.  The anonymous-namespace globals of the two translation
units become fields of an explicit state record threaded through the
operations.  Filesystem and platform calls become oracle fields of an
environment record.
-/

namespace BsnesHd

/-! ## Association-list maps and sets

`::nall::map` and `::nall::set` are embedded as association lists with
first-match lookup; `insert` replaces an existing binding in place and
otherwise appends, which matches the nall semantics for the operations the
embedded code performs (every insert in the embedded code is guarded by a
failed find, so only the append case is ever reachable there). -/

def alookup {V : Type} : List (Nat × V) → Nat → Option V
  | [], _ => none
  | (k, v) :: r, k' => if k = k' then some v else alookup r k'

def arepl {V : Type} (k : Nat) (v : V) (p : Nat × V) : Nat × V :=
  if p.1 = k then (k, v) else p

def ainsert {V : Type} (l : List (Nat × V)) (k : Nat) (v : V) : List (Nat × V) :=
  match alookup l k with
  | some _ => l.map (arepl k v)
  | none => l ++ [(k, v)]

def slookup {V : Type} : List (String × V) → String → Option V
  | [], _ => none
  | (k, v) :: r, k' => if k = k' then some v else slookup r k'

def srepl {V : Type} (k : String) (v : V) (p : String × V) : String × V :=
  if p.1 = k then (k, v) else p

def sinsert {V : Type} (l : List (String × V)) (k : String) (v : V) : List (String × V) :=
  match slookup l k with
  | some _ => l.map (srepl k v)
  | none => l ++ [(k, v)]

def smem (l : List String) (k : String) : Bool := l.contains k

def sadd (l : List String) (k : String) : List String :=
  if smem l k then l else l ++ [k]

def nmem (l : List Nat) (k : Nat) : Bool := l.contains k

def nadd (l : List Nat) (k : Nat) : List Nat :=
  if nmem l k then l else l ++ [k]

/-! ## Bit-plane decoder (`PPU::Background::fetchCharacter`, lines 634-654)

`fetchCharacter` reads one 16-bit VRAM word, conditionally reverses the
bit order within each byte (when the tile is not horizontally mirrored),
and interleaves the two bytes into one 16-bit field with the multiply
based bit-spread transform.  `run` (lines 669-672) then consumes two bits
per plane per emitted pixel. -/

/-- Bit reversal within each byte of a 16-bit word: the three
mask-and-shift steps from `fetchCharacter` lines 644-646. -/
def rev16 (data : Nat) : Nat :=
  let d1 := (data >>> 4 &&& 0x0f0f) ||| (data <<< 4 &&& 0xf0f0)
  let d2 := (d1 >>> 2 &&& 0x3333) ||| (d1 <<< 2 &&& 0xcccc)
  (d2 >>> 1 &&& 0x5555) ||| (d2 <<< 1 &&& 0xaaaa)

/-- The multiply/mask bit-spread applied to one byte
(`(uint8(..) * 0x0101010101010101ull & 0x8040201008040201ull) *
0x0102040810204081ull`), with the 64-bit truncation of the C
multiplications made explicit. -/
def spread (b : Nat) : Nat :=
  ((b * 0x0101010101010101) % 2 ^ 64 &&& 0x8040201008040201) * 0x0102040810204081 % 2 ^ 64

/-- The full two-byte interleave from `fetchCharacter` lines 650-653:
low byte spread to even bit positions, high byte to odd bit positions. -/
def ileave (data : Nat) : Nat :=
  ((spread (data % 256) >>> 49) &&& 0x5555) ||| ((spread ((data >>> 8) % 256) >>> 48) &&& 0xaaaa)

/-- The complete per-word transform of `fetchCharacter`: mirror-conditional
byte-wise bit reversal followed by the bit-plane interleave. -/
def fetchCharacterData (hmirror : Bool) (data : Nat) : Nat :=
  ileave (if hmirror then data else rev16 data)

/-- One `run` color-extraction step (lines 669-672): two bits taken from
each active plane word.  The plane-0 contribution is unconditional in the
source (`io.mode >= Mode::BPP2` always holds). -/
def runExtractColor (mode d0 d1 d2 d3 : Nat) : Nat :=
  ((d0 &&& 3) <<< 0)
    ||| (if 1 ≤ mode then (d1 &&& 3) <<< 2 else 0)
    ||| (if 2 ≤ mode then (d2 &&& 3) <<< 4 else 0)
    ||| (if 2 ≤ mode then (d3 &&& 3) <<< 6 else 0)

/-- Iterating the `run` extraction: each step consumes two bits of every
plane word (the `>>= 2` shifts are unconditional in the source). -/
def decodeGo (mode : Nat) : Nat → Nat × Nat × Nat × Nat → List Nat
  | 0, _ => []
  | n + 1, (d0, d1, d2, d3) =>
      runExtractColor mode d0 d1 d2 d3 ::
        decodeGo mode n (d0 >>> 2, d1 >>> 2, d2 >>> 2, d3 >>> 2)

/-- The 8-pixel color-index sequence produced for one tile row: the four
plane words pass through `fetchCharacterData` and the `run` extraction
loop runs eight times. -/
def decodeTileRow (mode : Nat) (hmirror : Bool) (w0 w1 w2 w3 : Nat) : List Nat :=
  decodeGo mode 8
    (fetchCharacterData hmirror w0, fetchCharacterData hmirror w1,
     fetchCharacterData hmirror w2, fetchCharacterData hmirror w3)

/-! ## Identity keys (`hdMakeKey`, lines 209-219, and the dump key of
`dumpTile`, lines 891-898) -/

/-- The 64-bit tile identity key builder (`hdMakeKey`): disjoint masked
fields packed with shifts and bitwise or. -/
def hdMakeKey (bgId bppIndex character palette paletteGroup hmirror vmirror : Nat) : Nat :=
  (bgId &&& 0x3)
    ||| ((character &&& 0x3ff) <<< 2)
    ||| ((palette &&& 0xffff) <<< 12)
    ||| ((bppIndex &&& 0x3) <<< 28)
    ||| ((hmirror &&& 0x1) <<< 30)
    ||| ((vmirror &&& 0x1) <<< 31)
    ||| ((paletteGroup &&& 0x7) <<< 32)

/-! ## Data model records -/

/-- One composited pixel (struct `Pixel` of `background.hpp`). -/
structure Pixel where
  priority : Nat := 0
  palette : Nat := 0
  paletteGroup : Nat := 0
  hdPresent : Bool := false
  hdColor : Nat := 0
deriving Repr, DecidableEq

/-- One live background tile (struct `Tile` of `background.hpp`).  The
four 16-bit plane words `data[4]` become `data0`-`data3`, and the 8-entry
`hdRowColors` array becomes a function. -/
structure Tile where
  character : Nat := 0
  palette : Nat := 0
  paletteGroup : Nat := 0
  priority : Nat := 0
  hmirror : Bool := false
  vmirror : Bool := false
  data0 : Nat := 0
  data1 : Nat := 0
  data2 : Nat := 0
  data3 : Nat := 0
  hd : Bool := false
  hdRow : Nat := 0
  hdKey : Nat := 0
  hdRowCached : Bool := false
  hdRowCachedIndex : Nat := 0
  hdRowCachedHmirror : Bool := false
  hdRowCachedKey : Nat := 0
  hdRowPresentMask : Nat := 0
  hdRowColors : Nat → Nat := fun _ => 0
  hdHashCached : Bool := false
  hdHashKey : Nat := 0
  hdHash : Nat := 0

/-- A decoded substitution image.  The pixel grid of `::nall::image` is
abstracted to the 8x8 sample arrays that `hdPrecomputeSamples` derives
from it, plus the `ok` flag standing for its width/height >= 8 dimension
check; no claim depends on the sampling arithmetic itself. -/
structure HDImg where
  ok : Bool := true
  sample15 : Nat → Nat := fun _ => 0
  sampleA : Nat → Nat := fun _ => 0

/-- One HD cache entry (struct `HDEntry`, lines 6-15). -/
structure HDEntry where
  img : Option HDImg := none
  loaded : Bool := false
  present : Bool := false
  checkedPresence : Bool := false
  sample15 : Nat → Nat := fun _ => 0
  sampleA : Nat → Nat := fun _ => 0
  sampleReady : Bool := false

/-- One manifest entry (struct `ManifestEntry`, line 24). -/
structure ManifestEntry where
  sample15 : Nat → Nat := fun _ => 0
  sampleA : Nat → Nat := fun _ => 0

/-- One pending dump tile (struct `DumpEntry`, line 35): 64 packed
0xAARRGGBB pixels. -/
structure DumpEntry where
  px : Nat → Nat := fun _ => 0

/-- One pending Mode 7 full-texture dump (struct `M7DumpEntry`, line 58).
The pixel vector contents never matter to the claims. -/
structure M7Entry where
  width : Nat := 0
  height : Nat := 0
  px : List Nat := []
deriving Repr, DecidableEq

/-- The incremental Mode 7 capture state (struct `M7BuildState`,
lines 61-67). -/
structure M7Build where
  active : Bool := false
  width : Nat := 1024
  height : Nat := 1024
  nextY : Nat := 0
  filename : String := ""
  px : List Nat := []
deriving Repr, DecidableEq

/-- The anonymous-namespace globals of `background.cpp` (lines 5-67) and
`object.cpp` (lines 3-11), gathered into one state record. -/
structure Globals where
  hdCache : List (String × HDEntry) := []
  hdStemByKey : List (Nat × String) := []
  hdEntryByKey : List (Nat × String) := []
  manifestMap : List (Nat × ManifestEntry) := []
  manifestLoaded : Bool := false
  manifestAvailable : Bool := false
  hdKeyToHash : List (Nat × Nat) := []
  hdInitialized : Bool := false
  hdBasePath : String := ""
  hdDumpPending : List (String × DumpEntry) := []
  hdDumpSeen : List String := []
  hdDumpSeenKeys : List Nat := []
  hdDumpOrder : List String := []
  hdDumpBudget : Nat := 0
  hdPresenceBudget : Nat := 0
  hdLoadBudget : Nat := 0
  hdSampleRowBudget : Nat := 0
  hdHashBudget : Nat := 0
  m7DumpPending : List (String × M7Entry) := []
  m7DumpSeen : List String := []
  m7Build : M7Build := {}
  spriteDumpPending : List (String × DumpEntry) := []
  spriteDumpSeen : List String := []
  spriteDumpSeenKeys : List Nat := []
  spriteDumpOrder : List String := []
  spriteDumpBudget : Nat := 0

/-- The `g_hdEntryByKey` pointer map stores `HDEntry*` pointers into
`g_hdCache`; a pointer is embedded as the stem string naming the cache
slot it aims at, and updates through the pointer write back into
`hdCache`. -/
def derefEntry (g : Globals) (stem : String) : Option HDEntry :=
  slookup g.hdCache stem

/-- Environment of oracles for filesystem and platform calls, plus the
parts of the machine state (VRAM, palette RAM) that live outside the
provided sources.  `tileHash` stands for `computeTileHash` (lines
793-846), which reconstructs the tile from VRAM through the palette
resolver and CRC32s it and always reports success; only its value as a
deterministic lookup key matters to the claims.  `reconstructTile` /
`reconstructSprite` stand for the pixel-reconstruction loops of
`dumpTile` (lines 926-984) and `dumpSpriteTile` (lines 55-114), whose
pixel values no claim constrains.  `manifestAvailableInit` /
`manifestMapInit` stand for the outcome of the `manifestLoad` text
parser (lines 119-207). -/
structure Env where
  fsExists : String → Bool := fun _ => false
  fsLoadImg : String → Option HDImg := fun _ => none
  hdPackPath : String := ""
  dumpDir : Option String := none
  manifestAvailableInit : Bool := false
  manifestMapInit : List (Nat × ManifestEntry) := []
  tileHash : Tile → Nat := fun _ => 0
  reconstructTile : Tile → Nat → Nat := fun _ _ => 0
  reconstructSprite : Nat → Nat → Nat → Nat := fun _ _ _ => 0

/-- Per-layer configuration and register fields of `PPU::Background`
that the embedded operations read. -/
structure Bg where
  id : Nat := 0
  mode : Nat := 0
  aboveEnable : Bool := false
  belowEnable : Bool := false

/-- Ambient PPU state read by `run`. -/
structure PpuState where
  vcounter : Nat := 1
  hcounter : Nat := 0
  bgMode : Nat := 0
  mosaicSize : Nat := 1
deriving Repr, DecidableEq

/-- `PPU::Background::hires()` (lines 396-398). -/
def hires (p : PpuState) : Bool := p.bgMode == 5 || p.bgMode == 6

/-- The per-layer mutable state that `run` touches, with the globals
threaded alongside.  `run` reads and mutates `tiles[renderingIndex]`;
the embedding carries that one tile. -/
structure RunState where
  tile : Tile := {}
  pixelCounter : Nat := 0
  renderingIndex : Nat := 0
  mosaicEnable : Bool := false
  mosaicHcounter : Nat := 0
  mosaicPixel : Pixel := {}
  outputAbove : Pixel := {}
  outputBelow : Pixel := {}
  g : Globals := {}

/-! ## Stems and filenames -/

/-- Decimal rendering of a number, as nall string concatenation does. -/
def natStr (n : Nat) : String := toString n

/-- Modelled from the spec: the nall `pad(value, length, '0')` string
helper (outside the provided sources) renders the value in decimal
zero-padded on the left to the requested length. -/
def padZero (width : Nat) (s : String) : String :=
  if s.length < width then String.mk (List.replicate (width - s.length) '0') ++ s else s

/-- `bppIndex` computation used by `hdHasOrLoad`, `fetchNameTable` and
`dumpTile`: `(io.mode == BPP2) ? 0 : (io.mode == BPP4) ? 1 : 2`. -/
def bppIndexOf (mode : Nat) : Nat := if mode = 0 then 0 else if mode = 1 then 1 else 2

/-- `PPU::Background::hdMakeStem` (lines 255-267). -/
def hdMakeStem (basePath : String) (bg : Bg) (t : Tile) : String :=
  basePath ++ "BG" ++ natStr (1 + bg.id)
    ++ "_C" ++ padZero 4 (natStr t.character)
    ++ "_PB" ++ padZero 3 (natStr t.palette)
    ++ "_G" ++ natStr t.paletteGroup
    ++ "_B" ++ natStr (2 <<< bg.mode)
    ++ "_H" ++ natStr (if t.hmirror then 1 else 0)
    ++ "_V" ++ natStr (if t.vmirror then 1 else 0)

/-- The dump filename built by `dumpTile` (lines 911-921): the stem
fields with the dump directory as base and a `.png` suffix. -/
def dumpTileFilename (dir : String) (bg : Bg) (t : Tile) : String :=
  dir ++ "BG" ++ natStr (1 + bg.id)
    ++ "_C" ++ padZero 4 (natStr t.character)
    ++ "_PB" ++ padZero 3 (natStr t.palette)
    ++ "_G" ++ natStr t.paletteGroup
    ++ "_B" ++ natStr (2 <<< bg.mode)
    ++ "_H" ++ natStr (if t.hmirror then 1 else 0)
    ++ "_V" ++ natStr (if t.vmirror then 1 else 0)
    ++ ".png"

/-! ## HD cache operations -/

/-- `manifestLoad` (lines 119-207): attempted once per power cycle; the
tolerant text parsing and sheet sampling are summarised by the
environment's manifest outcome fields. -/
def manifestLoad (env : Env) (g : Globals) : Globals :=
  if g.manifestLoaded then g
  else { g with manifestLoaded := true,
                manifestAvailable := env.manifestAvailableInit,
                manifestMap := env.manifestMapInit }

/-- `hdInit` (lines 72-79). -/
def hdInit (env : Env) (g : Globals) : Globals :=
  if g.hdInitialized then g
  else manifestLoad env { g with hdBasePath := env.hdPackPath, hdInitialized := true }

/-- `hdPrecomputeSamples` (lines 223-251): fails (leaving `sampleReady`
false) without a valid, large-enough image, and otherwise installs the
8x8 samples derived from the image. -/
def hdPrecomputeSamples (e : HDEntry) : HDEntry :=
  match e.img with
  | none => { e with sampleReady := false }
  | some im =>
      if im.ok then
        { e with sample15 := im.sample15, sampleA := im.sampleA, sampleReady := true }
      else { e with sampleReady := false }

/-- The identity key `hdHasOrLoad` and `fetchNameTable` derive for a
tile. -/
def tileKey (bg : Bg) (t : Tile) : Nat :=
  hdMakeKey bg.id (bppIndexOf bg.mode) t.character t.palette t.paletteGroup
    (if t.hmirror then 1 else 0) (if t.vmirror then 1 else 0)

/-- The stem `hdHasOrLoad` uses: recalled from `g_hdStemByKey` or built
fresh. -/
def stemOf (bg : Bg) (t : Tile) (g : Globals) : String :=
  match alookup g.hdStemByKey (tileKey bg t) with
  | some s => s
  | none => hdMakeStem g.hdBasePath bg t

/-- The body of `hdHasOrLoad` after initialization, over the already
computed identity key and freshly built stem string. -/
def hdHasOrLoadCore (env : Env) (key : Nat) (stemFresh : String) (g1 : Globals) :
    Bool × Globals :=
  let stem := match alookup g1.hdStemByKey key with
    | some s => s
    | none => stemFresh
  let g2 := match alookup g1.hdStemByKey key with
    | some _ => g1
    | none => { g1 with hdStemByKey := ainsert g1.hdStemByKey key stem }
  match slookup g2.hdCache stem with
  | some e =>
      let g3 := { g2 with hdEntryByKey := ainsert g2.hdEntryByKey key stem }
      if ¬e.checkedPresence ∧ 0 < g3.hdPresenceBudget then
        let present := env.fsExists (stem ++ ".png") || env.fsExists (stem ++ ".bmp")
        (present,
         { g3 with hdPresenceBudget := g3.hdPresenceBudget - 1,
                   hdCache := sinsert g3.hdCache stem
                     { e with present := present, checkedPresence := true } })
      else (e.present, g3)
  | none =>
      if 0 < g2.hdPresenceBudget then
        let present :=
          if env.fsExists (stem ++ ".png") then true
          else env.fsExists (stem ++ ".bmp")
        (present,
         { g2 with hdPresenceBudget := g2.hdPresenceBudget - 1,
                   hdCache := sinsert g2.hdCache stem
                     { present := present, checkedPresence := true },
                   hdEntryByKey := ainsert g2.hdEntryByKey key stem })
      else
        (false,
         { g2 with hdCache := sinsert g2.hdCache stem
                     { present := false, checkedPresence := false },
                   hdEntryByKey := ainsert g2.hdEntryByKey key stem })

/-- `PPU::Background::hdHasOrLoad` (lines 269-315): presence resolution
with budget-gated filesystem checks. -/
def hdHasOrLoad (env : Env) (bg : Bg) (t : Tile) (g0 : Globals) : Bool × Globals :=
  let g1 := hdInit env g0
  if g1.hdBasePath = "" then (false, g1)
  else hdHasOrLoadCore env (tileKey bg t) (hdMakeStem g1.hdBasePath bg t) g1

/-! ## The per-dot emit step (`PPU::Background::run`, lines 656-790) -/

/-- The 8-iteration loop that fills the per-tile HD row cache from a pair
of 8x8 sample arrays (`run` lines 712-722 for the manifest entry, lines
749-759 for the per-stem entry; both loops are identical). -/
def rowFill (t : Tile) (s15 sA : Nat → Nat) : Tile :=
  let yrow := t.hdRow
  let r := (List.range 8).foldl
    (fun (acc : (Nat → Nat) × Nat) i =>
      let xWithin := if t.hmirror then 7 - i else i
      let idx := yrow * 8 + xWithin
      if sA idx ≠ 0 then (Function.update acc.1 i (s15 idx), acc.2 ||| (1 <<< i))
      else acc)
    (t.hdRowColors, 0)
  { t with hdRowColors := r.1, hdRowPresentMask := r.2,
           hdRowCached := true, hdRowCachedIndex := yrow,
           hdRowCachedHmirror := t.hmirror, hdRowCachedKey := t.hdKey }

/-- The row-cache building step of `run` (lines 687-763), executed when
the tile's row cache does not already cover the current row: consumes one
unit of the sample-row budget, tries the manifest hash path first, and
falls back to the per-stem entry path only when the manifest produced no
fill.  Returns the updated tile and globals plus the `rowReady` flag. -/
def runHdResolve (env : Env) (bg : Bg) (t : Tile) (g : Globals) : Tile × Globals × Bool :=
  if 0 < g.hdSampleRowBudget then
    let g := { g with hdSampleRowBudget := g.hdSampleRowBudget - 1 }
    -- 1) manifest mapping by hash, if available
    let hashed : Bool × Nat × Tile × Globals :=
      if g.manifestAvailable then
        if t.hdHashCached ∧ t.hdHashKey = t.hdKey then (true, t.hdHash, t, g)
        else if 0 < g.hdHashBudget then
          let th := env.tileHash t
          (true, th,
           { t with hdHash := th, hdHashKey := t.hdKey, hdHashCached := true },
           { g with hdHashBudget := g.hdHashBudget - 1 })
        else (false, 0, t, g)
      else (false, 0, t, g)
    let hasHash := hashed.1
    let thash := hashed.2.1
    let t1 := hashed.2.2.1
    let g1 := hashed.2.2.2
    let manifestFill : Option ManifestEntry :=
      if hasHash then alookup g1.manifestMap thash else none
    match manifestFill with
    | some me => (rowFill t1 me.sample15 me.sampleA, g1, true)
    | none =>
        -- 2) fallback: per-stem single-file entry path
        match alookup g1.hdEntryByKey t1.hdKey with
        | none => (t1, g1, false)
        | some stem =>
            match derefEntry g1 stem with
            | none => (t1, g1, false)
            | some ent =>
                let step1 : HDEntry × Globals :=
                  if ¬ent.loaded ∧ (ent.present ∧ 0 < g1.hdLoadBudget) then
                    let stemStr := match alookup g1.hdStemByKey t1.hdKey with
                      | some s => s
                      | none => hdMakeStem g1.hdBasePath bg t1
                    let img := match env.fsLoadImg (stemStr ++ ".png") with
                      | some im => some im
                      | none => env.fsLoadImg (stemStr ++ ".bmp")
                    ({ ent with img := img, loaded := img.isSome },
                     { g1 with hdLoadBudget := g1.hdLoadBudget - 1 })
                  else (ent, g1)
                let ent1 := step1.1
                let g2 := step1.2
                let step2 : HDEntry × Globals :=
                  if ent1.loaded ∧ (¬ent1.sampleReady ∧ 0 < g2.hdLoadBudget) then
                    (hdPrecomputeSamples ent1,
                     { g2 with hdLoadBudget := g2.hdLoadBudget - 1 })
                  else (ent1, g2)
                let ent2 := step2.1
                let g3 := { step2.2 with hdCache := sinsert step2.2.hdCache stem ent2 }
                if ent2.sampleReady then (rowFill t1 ent2.sample15 ent2.sampleA, g3, true)
                else (t1, g3, false)
  else (t, g, false)

/-- The HD-substitution block of `run` (lines 683-772): gated on the HD
pack being enabled, the tile carrying substitution art, a non-zero color
index, and the layer being BG1; overrides the pixel when the (possibly
just rebuilt) row cache holds a present sample at this dot. -/
def runHdBlock (env : Env) (bg : Bg) (useHDPack : Bool) (t : Tile) (g : Globals)
    (color pixelCounter : Nat) (pixel : Pixel) : Pixel × Tile × Globals :=
  if useHDPack ∧ t.hd ∧ color ≠ 0 ∧ bg.id = 0 then
    let rowReady0 := t.hdRowCached ∧ t.hdRowCachedIndex = t.hdRow ∧
      t.hdRowCachedHmirror = t.hmirror
    let resolved : Tile × Globals × Bool :=
      if rowReady0 then (t, g, true) else runHdResolve env bg t g
    let t1 := resolved.1
    let g1 := resolved.2.1
    let rowReady := resolved.2.2
    if rowReady then
      let bit := 1 <<< (pixelCounter &&& 7)
      if t1.hdRowPresentMask &&& bit ≠ 0 then
        ({ pixel with hdPresent := true, hdColor := t1.hdRowColors (pixelCounter &&& 7) },
         t1, g1)
      else (pixel, t1, g1)
    else (pixel, t1, g1)
  else (pixel, t, g)

/-- Whether the mosaic post-step of `run` (lines 775-784) substitutes the
held pixel for the freshly extracted one on this dot: the dot neither
resets the hold at `x = 0` nor refreshes it by the hold counter reaching
zero, and mosaic is enabled. -/
def mosaicHolds (ppu : PpuState) (screen : Bool) (st : RunState) : Bool :=
  let x := ((ppu.hcounter + 2 ^ 32 - 56) % 2 ^ 32) >>> 2
  if x = 0 then false
  else if !(hires ppu) || screen then
    if (st.mosaicHcounter + 65535) % 65536 = 0 then false else st.mosaicEnable
  else st.mosaicEnable

/-- `PPU::Background::run` (lines 656-790), with the emitted pixel (the
value tested against the output slots, after mosaic substitution) also
returned for observation; `none` on the paths that return before
reaching the emission point.  `screen` is `Screen::Below` when true.
The Mode 7 branch (`runMode7`) is outside this embedding and is
represented as leaving the state unchanged; the claims about `run`
exclude it by hypothesis. -/
def runWithPixel (env : Env) (bg : Bg) (useHDPack : Bool) (ppu : PpuState)
    (screen : Bool) (st0 : RunState) : RunState × Option Pixel :=
  if ppu.vcounter = 0 then (st0, none)
  else
    let st := if screen then
        { st0 with outputAbove := { st0.outputAbove with priority := 0 },
                   outputBelow := { st0.outputBelow with priority := 0 } }
      else st0
    if screen ∧ ¬(hires ppu = true) then (st, none)
    else if bg.mode = 3 then (st, none)
    else
      let t := st.tile
      let color := runExtractColor bg.mode t.data0 t.data1 t.data2 t.data3
      let t := { t with data0 := t.data0 >>> 2, data1 := t.data1 >>> 2,
                        data2 := t.data2 >>> 2, data3 := t.data3 >>> 2 }
      let pixel : Pixel :=
        { priority := t.priority,
          palette := if color ≠ 0 then t.palette + color else 0,
          paletteGroup := t.paletteGroup, hdPresent := false, hdColor := 0 }
      let hd := runHdBlock env bg useHDPack t st.g color st.pixelCounter pixel
      let pixel := hd.1
      let t := hd.2.1
      let g := hd.2.2
      let pixelCounter := (st.pixelCounter + 1) % 8
      let renderingIndex :=
        if pixelCounter = 0 then st.renderingIndex + 1 else st.renderingIndex
      let x := ((ppu.hcounter + 2 ^ 32 - 56) % 2 ^ 32) >>> 2
      let mos : Nat × Pixel × Pixel :=
        if x = 0 then (ppu.mosaicSize, pixel, pixel)
        else if !(hires ppu) || screen then
          let hc := (st.mosaicHcounter + 65535) % 65536
          if hc = 0 then (ppu.mosaicSize, pixel, pixel)
          else if st.mosaicEnable then (hc, st.mosaicPixel, st.mosaicPixel)
          else (hc, st.mosaicPixel, pixel)
        else
          if st.mosaicEnable then (st.mosaicHcounter, st.mosaicPixel, st.mosaicPixel)
          else (st.mosaicHcounter, st.mosaicPixel, pixel)
      let pixel := mos.2.2
      let st := { st with tile := t, g := g, pixelCounter := pixelCounter,
                          renderingIndex := renderingIndex,
                          mosaicHcounter := mos.1, mosaicPixel := mos.2.1 }
      if pixel.palette = 0 then (st, some pixel)
      else
        let st := if (¬(hires ppu = true) ∨ ¬screen) ∧ bg.aboveEnable then
            { st with outputAbove := pixel }
          else st
        let st := if (¬(hires ppu = true) ∨ screen) ∧ bg.belowEnable then
            { st with outputBelow := pixel }
          else st
        (st, some pixel)

/-- `PPU::Background::run` as a state transformer. -/
def run (env : Env) (bg : Bg) (useHDPack : Bool) (ppu : PpuState)
    (screen : Bool) (st : RunState) : RunState :=
  (runWithPixel env bg useHDPack ppu screen st).1

/-! ## Tile/sprite export pipeline (`dumpTile`, lines 882-998;
`dumpSpriteTile`, object.cpp lines 13-126) -/

/-- The fast integer dedup key of `dumpTile` (lines 891-898).  Unlike
`hdMakeKey` it carries no palette-group field. -/
def dumpTileKey (bg : Bg) (t : Tile) : Nat :=
  (bg.id &&& 0x3)
    ||| ((t.character &&& 0x3ff) <<< 2)
    ||| ((t.palette &&& 0xffff) <<< 12)
    ||| ((bppIndexOf bg.mode &&& 0x3) <<< 28)
    ||| ((if t.hmirror then 1 else 0) <<< 30)
    ||| ((if t.vmirror then 1 else 0) <<< 31)

/-- `PPU::Background::dumpTile` (lines 882-998): dedup by integer key,
then by filename, then budget-limited reconstruction and enqueue. -/
def dumpTile (env : Env) (bg : Bg) (t : Tile) (g : Globals) : Globals :=
  let key := dumpTileKey bg t
  if nmem g.hdDumpSeenKeys key then g
  else if g.hdDumpBudget = 0 then g
  else match env.dumpDir with
  | none => g
  | some dir =>
    let filename := dumpTileFilename dir bg t
    if smem g.hdDumpSeen filename then
      { g with hdDumpSeenKeys := nadd g.hdDumpSeenKeys key }
    else if (slookup g.hdDumpPending filename).isSome then
      { g with hdDumpSeen := sadd g.hdDumpSeen filename,
               hdDumpSeenKeys := nadd g.hdDumpSeenKeys key }
    else
      let entry : DumpEntry := { px := env.reconstructTile t }
      if (slookup g.hdDumpPending filename).isSome then g
      else
        { g with hdDumpPending := sinsert g.hdDumpPending filename entry,
                 hdDumpSeen := sadd g.hdDumpSeen filename,
                 hdDumpSeenKeys := nadd g.hdDumpSeenKeys key,
                 hdDumpOrder := g.hdDumpOrder ++ [filename],
                 hdDumpBudget := if 0 < g.hdDumpBudget then g.hdDumpBudget - 1
                                 else g.hdDumpBudget }

/-- The sprite attributes `dumpSpriteTile` reads from its OAM object. -/
structure SpriteIn where
  character : Nat := 0
  palette : Nat := 0
  hflip : Bool := false
  vflip : Bool := false
deriving Repr, DecidableEq

/-- The fast integer dedup key of `dumpSpriteTile` (object.cpp lines
20-28). -/
def dumpSpriteKey (s : SpriteIn) (tx : Nat) : Nat :=
  (1 <<< 60)
    ||| (s.character &&& 0x3ff)
    ||| ((s.palette &&& 0x0f) <<< 12)
    ||| ((1 &&& 0x3) <<< 16)
    ||| ((if s.hflip then 1 else 0) <<< 18)
    ||| ((if s.vflip then 1 else 0) <<< 19)
    ||| ((tx &&& 0x0f) <<< 20)

/-- The dump filename built by `dumpSpriteTile` (object.cpp lines
36-49). -/
def dumpSpriteFilename (dir : String) (s : SpriteIn) (tx : Nat) : String :=
  dir ++ "SPR"
    ++ "_C" ++ padZero 4 (natStr s.character)
    ++ "_TX" ++ padZero 2 (natStr tx)
    ++ "_PB" ++ padZero 3 (natStr (128 + (s.palette <<< 4)))
    ++ "_B" ++ natStr 4
    ++ "_H" ++ natStr (if s.hflip then 1 else 0)
    ++ "_V" ++ natStr (if s.vflip then 1 else 0)
    ++ ".png"

/-- `PPU::Object::dumpSpriteTile` (object.cpp lines 13-126).  The budget
early-out comes first here, before the key dedup check. -/
def dumpSpriteTile (env : Env) (s : SpriteIn) (tx : Nat) (g : Globals) : Globals :=
  if g.spriteDumpBudget = 0 then g
  else
    let key := dumpSpriteKey s tx
    if nmem g.spriteDumpSeenKeys key then g
    else match env.dumpDir with
    | none => g
    | some dir =>
      let filename := dumpSpriteFilename dir s tx
      if smem g.spriteDumpSeen filename then
        { g with spriteDumpSeenKeys := nadd g.spriteDumpSeenKeys key }
      else if (slookup g.spriteDumpPending filename).isSome then
        { g with spriteDumpSeen := sadd g.spriteDumpSeen filename,
                 spriteDumpSeenKeys := nadd g.spriteDumpSeenKeys key }
      else
        let entry : DumpEntry := { px := env.reconstructSprite s.character tx }
        if (slookup g.spriteDumpPending filename).isSome then g
        else
          { g with spriteDumpPending := sinsert g.spriteDumpPending filename entry,
                   spriteDumpSeen := sadd g.spriteDumpSeen filename,
                   spriteDumpSeenKeys := nadd g.spriteDumpSeenKeys key,
                   spriteDumpOrder := g.spriteDumpOrder ++ [filename],
                   spriteDumpBudget := if 0 < g.spriteDumpBudget then
                       g.spriteDumpBudget - 1
                     else g.spriteDumpBudget }

/-! ## Tilesheet packing (`FlushHDTileDumpCache`, lines 1029-1057; the
identical sprite loop is object.cpp lines 146-170) -/

/-- Blit one 8x8 tile into sheet cell `i` (the copy loop of lines
1039-1051): cell column `i % 16`, cell row `i / 16`, sheet width 128. -/
def blitTile (sheet : Nat → Nat) (i : Nat) (e : DumpEntry) : Nat → Nat :=
  (List.range 8).foldl
    (fun s y =>
      (List.range 8).foldl
        (fun s2 x =>
          Function.update s2 ((i / 16 * 8 + y) * 128 + i % 16 * 8 + x) (e.px (y * 8 + x)))
        s)
    sheet

/-- Place a chunk of up to 256 tiles into one sheet, in order, starting
from the all-transparent (all-zero) sheet. -/
def fillSheetGo : List DumpEntry → Nat → (Nat → Nat) → Nat → Nat
  | [], _, s => s
  | e :: r, i, s => fillSheetGo r (i + 1) (blitTile s i e)

/-- One 128x128 sheet built from an (at most 256 long) tile list. -/
def fillSheet (tiles : List DumpEntry) : Nat → Nat :=
  fillSheetGo tiles 0 (fun _ => 0)

/-- The outer sheet loop (lines 1033-1056): repeatedly take up to 256
tiles into a fresh sheet until the bucket list is exhausted.  Structured
with a fuel argument (any fuel at least the list length reaches the
empty list first). -/
def buildSheetsGo : Nat → List DumpEntry → List (Nat → Nat)
  | _, [] => []
  | 0, _ => []
  | fuel + 1, l => fillSheet (l.take 256) :: buildSheetsGo fuel (l.drop 256)

/-- All sheets produced for one bucket list. -/
def buildSheets (l : List DumpEntry) : List (Nat → Nat) := buildSheetsGo l.length l

/-- The (y, x) iteration space of the 8x8 blit loop, flattened in loop
order. -/
def blitPairs : List (Nat × Nat) :=
  (List.range 8).flatMap (fun y => (List.range 8).map (fun x => (y, x)))

/-- Cell index of a sheet pixel position: which of the 256 cells (16 per
row, 8x8 pixels each) the position falls into. -/
def cellIdx (p : Nat) : Nat := p / 1024 * 16 + p % 128 / 8

/-- Position within the 8x8 cell, in the tile's own y*8+x indexing. -/
def pixIdx (p : Nat) : Nat := p / 128 % 8 * 8 + p % 8

/-! ## Flush and power state effects -/

/-- The state effect of `FlushHDTileDumpCache` (lines 1001-1078),
including the `FlushSpriteDumpCache` call (object.cpp lines 129-175):
each pending group is encoded and then cleared, skipping empty groups;
the seen sets are not touched. -/
def flushHDTileDumpCache (g0 : Globals) : Globals :=
  let g1 := if g0.hdDumpPending.isEmpty then g0
    else { g0 with hdDumpPending := [], hdDumpOrder := [] }
  let g2 := if g1.spriteDumpPending.isEmpty then g1
    else { g1 with spriteDumpPending := [], spriteDumpOrder := [] }
  if g2.m7DumpPending.isEmpty then g2 else { g2 with m7DumpPending := [] }

/-- The global-state effect of `PPU::Background::power` (lines 866-879).
The per-layer register randomization (lines 849-863) touches only
register state, none of the globals this record holds. -/
def powerBackgroundGlobals (g : Globals) : Globals :=
  { g with hdCache := [], hdStemByKey := [], hdEntryByKey := [],
           manifestMap := [], manifestLoaded := false, manifestAvailable := false,
           hdKeyToHash := [], hdInitialized := false, hdBasePath := "",
           hdDumpSeen := [], m7DumpSeen := [], m7Build := {},
           hdDumpOrder := [], hdDumpBudget := 0 }

/-- The global-state effect of `PPU::Object::power` (object.cpp lines
403-408); the OAM/register resets touch none of these globals. -/
def powerObjectGlobals (g : Globals) : Globals :=
  { g with spriteDumpSeen := [], spriteDumpSeenKeys := [],
           spriteDumpPending := [], spriteDumpOrder := [], spriteDumpBudget := 0 }

/-! ## Minimal PNG encoder (`nall::Encode::PNG`, png.hpp lines 13-189) -/

/-- Bytes per scanline including the leading filter byte. -/
def pngRowBytes (width : Nat) : Nat := 1 + width * 4

/-- The on-the-fly scanline generator (png.hpp lines 104-136): produce
`count` bytes of the filter-prefixed RGBA stream starting from row `y`,
intra-row position `pos`, returning the bytes and the final (y, pos)
state.  `mem y x` is the 32-bit 0xAARRGGBB word read at
`((const uint32_t*)(src + y * pitch))[x]`. -/
def pngGen (mem : Nat → Nat → Nat) (width : Nat) :
    Nat → Nat → Nat → List Nat × Nat × Nat
  | 0, y, pos => ([], y, pos)
  | count + 1, y, pos =>
    if pos = 0 then
      let r := pngGen mem width count y 1
      (0 :: r.1, r.2)
    else
      let x := (pos - 1) / 4
      let c := (pos - 1) % 4
      let argb := mem y x
      let out := if c = 0 then argb >>> 16 &&& 255
                 else if c = 1 then argb >>> 8 &&& 255
                 else if c = 2 then argb &&& 255
                 else argb >>> 24 &&& 255
      let next : Nat × Nat := if pos + 1 = pngRowBytes width then (y + 1, 0) else (y, pos + 1)
      let r := pngGen mem width count next.1 next.2
      (out :: r.1, r.2)

/-- One Adler-32 update (`adlerUpdate`, png.hpp line 62). -/
def adlerStep (a : Nat × Nat) (b : Nat) : Nat × Nat :=
  let a1 := (a.1 + b) % 65521
  (a1, (a.2 + a1) % 65521)

/-- Adler-32 of a byte stream, as accumulated by the per-byte updates:
`(adlerB << 16) | adlerA` from initial state (1, 0). -/
def adler32 (l : List Nat) : Nat :=
  let p := l.foldl adlerStep (1, 0)
  (p.2 <<< 16) ||| p.1

/-- Big-endian 32-bit serialization (`writem<uint32_t>(v, 4)`). -/
def be32 (v : Nat) : List Nat :=
  [v >>> 24 &&& 255, v >>> 16 &&& 255, v >>> 8 &&& 255, v &&& 255]

/-- A stored-deflate block header (png.hpp lines 95-102): BFINAL byte,
LEN little-endian, NLEN (one's-complement of LEN) little-endian. -/
def storeBlockHeader (final : Bool) (len : Nat) : List Nat :=
  let nn := 65535 - len
  [if final then 1 else 0, len &&& 255, (len >>> 8) &&& 255, nn &&& 255, (nn >>> 8) &&& 255]

/-- The block-emission loop (png.hpp lines 91-139): while data remains,
carve off `min remaining 65535` bytes into one stored block, flagging the
block final exactly when it exhausts the stream.  Returns the emitted
block bytes and, separately, the concatenated payload bytes (the byte
sequence fed to the Adler-32 updates, in order).  Fuel-structured; any
fuel at least `remaining` suffices since every iteration consumes at
least one byte. -/
def pngBlocksGo (mem : Nat → Nat → Nat) (width : Nat) :
    Nat → Nat → Nat → Nat → List Nat × List Nat
  | 0, _, _, _ => ([], [])
  | fuel + 1, remaining, y, pos =>
    if remaining = 0 then ([], [])
    else
      let chunk := min remaining 65535
      let r := pngGen mem width chunk y pos
      let rest := pngBlocksGo mem width fuel (remaining - chunk) r.2.1 r.2.2
      (storeBlockHeader (remaining = chunk) chunk ++ r.1 ++ rest.1, r.1 ++ rest.2)

/-- The complete zlib stream of `PNG::create` (png.hpp lines 52-147):
header bytes 0x78 0x01, the stored blocks, and the big-endian Adler-32
of the uncompressed data stream. -/
def pngZlib (mem : Nat → Nat → Nat) (width height : Nat) : List Nat :=
  let total := pngRowBytes width * height
  let r := pngBlocksGo mem width total total 0 0
  0x78 :: 0x01 :: (r.1 ++ be32 (adler32 r.2))

/-- One step of the CRC table construction (png.hpp line 180):
`c = (c >> 1) ^ (0xEDB88320 & -(c & 1))`. -/
def crc32Round (c : Nat) : Nat :=
  (c >>> 1) ^^^ (if c &&& 1 = 1 then 0xEDB88320 else 0)

/-- Entry `i` of the CRC-32 table: eight rounds applied to `i`. -/
def crc32TableEntry (i : Nat) : Nat :=
  (List.range 8).foldl (fun c _ => crc32Round c) i

/-- One CRC-32 update over a byte. -/
def crc32Update (crc b : Nat) : Nat :=
  (crc >>> 8) ^^^ crc32TableEntry ((crc ^^^ b) &&& 255)

/-- CRC-32 (IEEE 802.3) of a byte list (png.hpp lines 172-188). -/
def crc32 (bytes : List Nat) : Nat :=
  (bytes.foldl crc32Update 0xFFFFFFFF) ^^^ 0xFFFFFFFF

/-- `PNG::writeChunk` (png.hpp lines 160-170): big-endian length, the
4-byte type, the data, and a big-endian CRC over type plus data. -/
def writeChunk (type4 : List Nat) (data : List Nat) : List Nat :=
  be32 data.length ++ type4 ++ data ++ be32 (crc32 (type4 ++ data))

/-- The 8-byte PNG signature. -/
def pngSignature : List Nat := [0x89, 0x50, 0x4E, 0x47, 0x0D, 0x0A, 0x1A, 0x0A]

/-- The 13 IHDR payload bytes (png.hpp lines 29-42). -/
def pngIhdrData (width height : Nat) : List Nat :=
  [width >>> 24 &&& 255, width >>> 16 &&& 255, width >>> 8 &&& 255, width &&& 255,
   height >>> 24 &&& 255, height >>> 16 &&& 255, height >>> 8 &&& 255, height &&& 255,
   8, 6, 0, 0, 0]

def typeIHDR : List Nat := [0x49, 0x48, 0x44, 0x52]

def typeIDAT : List Nat := [0x49, 0x44, 0x41, 0x54]

def typeIEND : List Nat := [0x49, 0x45, 0x4E, 0x44]

/-- `PNG::create` (png.hpp lines 13-156) as the byte stream it writes;
`none` models the `width == 0 || height == 0` failure return (the
unopenable-destination failure is an environment condition outside the
byte-level embedding). -/
def pngCreate (mem : Nat → Nat → Nat) (width height : Nat) : Option (List Nat) :=
  if width = 0 ∨ height = 0 then none
  else some (pngSignature
    ++ writeChunk typeIHDR (pngIhdrData width height)
    ++ writeChunk typeIDAT (pngZlib mem width height)
    ++ writeChunk typeIEND [])

/-! ## Specification-side reference definitions for the encoder

These follow the specification's words rather than the source loops, for
the refinement comparison: the data stream is each row's filter byte 0
followed by its RGBA bytes; it is split into stored blocks of at most
65535 bytes with only the last flagged final; the trailing checksum is
the Adler-32 of the data stream. -/

/-- Spec side: one scanline of the data stream. -/
def pngRowSpec (mem : Nat → Nat → Nat) (width y : Nat) : List Nat :=
  0 :: (List.range width).flatMap (fun x =>
    [mem y x >>> 16 &&& 255, mem y x >>> 8 &&& 255, mem y x &&& 255, mem y x >>> 24 &&& 255])

/-- Spec side: the whole uncompressed data stream. -/
def pngDataSpec (mem : Nat → Nat → Nat) (width height : Nat) : List Nat :=
  (List.range height).flatMap (pngRowSpec mem width)

/-- Spec side: split a byte stream into at-most-65535-byte segments,
marking the segment that ends the stream. -/
def chunksSpec (l : List Nat) : List (List Nat × Bool) :=
  if l.isEmpty then []
  else (l.take 65535, decide (l.length ≤ 65535)) :: chunksSpec (l.drop 65535)
termination_by l.length
decreasing_by
  rename_i h
  simp only [List.length_drop]
  have hl : l ≠ [] := by
    intro hnil
    rw [hnil] at h
    simp at h
  have hpos : 0 < l.length := List.length_pos.mpr hl
  omega

/-- Spec side: the stored blocks of a byte stream. -/
def blocksSpec (l : List Nat) : List Nat :=
  (chunksSpec l).flatMap (fun pc => storeBlockHeader pc.2 pc.1.length ++ pc.1)

/-- Spec side: the zlib stream description from the specification. -/
def pngZlibSpec (mem : Nat → Nat → Nat) (width height : Nat) : List Nat :=
  0x78 :: 0x01 :: (blocksSpec (pngDataSpec mem width height)
    ++ be32 (adler32 (pngDataSpec mem width height)))

/-! # Theorems -/

/-! ## Association-list facts -/

theorem slookup_append {V : Type} (l1 l2 : List (String × V)) (k : String) :
    slookup (l1 ++ l2) k =
      match slookup l1 k with
      | some v => some v
      | none => slookup l2 k := by
  induction l1 with
  | nil => rfl
  | cons a r ih =>
    obtain ⟨a1, a2⟩ := a
    simp only [List.cons_append, slookup]
    by_cases h : a1 = k
    · simp [h]
    · rw [if_neg h, if_neg h]
      exact ih

theorem slookup_map_repl_self {V : Type} (l : List (String × V)) (k : String) (v w : V)
    (h : slookup l k = some w) :
    slookup (l.map (srepl k v)) k = some v := by
  induction l with
  | nil => simp [slookup] at h
  | cons a r ih =>
    obtain ⟨a1, a2⟩ := a
    simp only [slookup] at h
    by_cases ha : a1 = k
    · rw [List.map_cons]
      have hh : srepl k v (a1, a2) = (k, v) := by simp [srepl, ha]
      rw [hh]
      simp [slookup]
    · rw [if_neg ha] at h
      rw [List.map_cons]
      have hh : srepl k v (a1, a2) = (a1, a2) := by simp [srepl, ha]
      rw [hh]
      simp only [slookup]
      rw [if_neg ha]
      exact ih h

theorem slookup_map_repl_ne {V : Type} (l : List (String × V)) (k k' : String) (v : V)
    (hne : k' ≠ k) :
    slookup (l.map (srepl k v)) k' = slookup l k' := by
  induction l with
  | nil => rfl
  | cons a r ih =>
    obtain ⟨a1, a2⟩ := a
    by_cases ha : a1 = k
    · rw [List.map_cons]
      have hh : srepl k v (a1, a2) = (k, v) := by simp [srepl, ha]
      rw [hh]
      simp only [slookup]
      have haa : ¬a1 = k' := by rw [ha]; exact Ne.symm hne
      rw [if_neg (Ne.symm hne), if_neg haa]
      exact ih
    · rw [List.map_cons]
      have hh : srepl k v (a1, a2) = (a1, a2) := by simp [srepl, ha]
      rw [hh]
      simp only [slookup]
      by_cases ha' : a1 = k'
      · simp [ha']
      · rw [if_neg ha', if_neg ha']
        exact ih

theorem slookup_sinsert_self {V : Type} (l : List (String × V)) (k : String) (v : V) :
    slookup (sinsert l k v) k = some v := by
  unfold sinsert
  cases h : slookup l k with
  | none =>
    rw [slookup_append, h]
    simp [slookup]
  | some w => exact slookup_map_repl_self l k v w h

theorem slookup_sinsert_of_ne {V : Type} (l : List (String × V)) (k k' : String) (v : V)
    (hne : k' ≠ k) : slookup (sinsert l k v) k' = slookup l k' := by
  unfold sinsert
  cases h : slookup l k with
  | none =>
    rw [slookup_append]
    cases h' : slookup l k' with
    | none => simp [slookup, Ne.symm hne]
    | some w => rfl
  | some w => exact slookup_map_repl_ne l k k' v hne

theorem alookup_append {V : Type} (l1 l2 : List (Nat × V)) (k : Nat) :
    alookup (l1 ++ l2) k =
      match alookup l1 k with
      | some v => some v
      | none => alookup l2 k := by
  induction l1 with
  | nil => rfl
  | cons a r ih =>
    obtain ⟨a1, a2⟩ := a
    simp only [List.cons_append, alookup]
    by_cases h : a1 = k
    · simp [h]
    · rw [if_neg h, if_neg h]
      exact ih

theorem alookup_map_repl_self {V : Type} (l : List (Nat × V)) (k : Nat) (v w : V)
    (h : alookup l k = some w) :
    alookup (l.map (arepl k v)) k = some v := by
  induction l with
  | nil => simp [alookup] at h
  | cons a r ih =>
    obtain ⟨a1, a2⟩ := a
    simp only [alookup] at h
    by_cases ha : a1 = k
    · rw [List.map_cons]
      have hh : arepl k v (a1, a2) = (k, v) := by simp [arepl, ha]
      rw [hh]
      simp [alookup]
    · rw [if_neg ha] at h
      rw [List.map_cons]
      have hh : arepl k v (a1, a2) = (a1, a2) := by simp [arepl, ha]
      rw [hh]
      simp only [alookup]
      rw [if_neg ha]
      exact ih h

theorem alookup_map_repl_ne {V : Type} (l : List (Nat × V)) (k k' : Nat) (v : V)
    (hne : k' ≠ k) :
    alookup (l.map (arepl k v)) k' = alookup l k' := by
  induction l with
  | nil => rfl
  | cons a r ih =>
    obtain ⟨a1, a2⟩ := a
    by_cases ha : a1 = k
    · rw [List.map_cons]
      have hh : arepl k v (a1, a2) = (k, v) := by simp [arepl, ha]
      rw [hh]
      simp only [alookup]
      have haa : ¬a1 = k' := by rw [ha]; exact Ne.symm hne
      rw [if_neg (Ne.symm hne), if_neg haa]
      exact ih
    · rw [List.map_cons]
      have hh : arepl k v (a1, a2) = (a1, a2) := by simp [arepl, ha]
      rw [hh]
      simp only [alookup]
      by_cases ha' : a1 = k'
      · simp [ha']
      · rw [if_neg ha', if_neg ha']
        exact ih

theorem alookup_ainsert_self {V : Type} (l : List (Nat × V)) (k : Nat) (v : V) :
    alookup (ainsert l k v) k = some v := by
  unfold ainsert
  cases h : alookup l k with
  | none =>
    rw [alookup_append, h]
    simp [alookup]
  | some w => exact alookup_map_repl_self l k v w h

theorem alookup_ainsert_of_ne {V : Type} (l : List (Nat × V)) (k k' : Nat) (v : V)
    (hne : k' ≠ k) : alookup (ainsert l k v) k' = alookup l k' := by
  unfold ainsert
  cases h : alookup l k with
  | none =>
    rw [alookup_append]
    cases h' : alookup l k' with
    | none => simp [alookup, Ne.symm hne]
    | some w => rfl
  | some w => exact alookup_map_repl_ne l k k' v hne

/-! ## C2: bit-plane decoder mirror round-trip -/

set_option maxHeartbeats 1000000 in
set_option maxRecDepth 4000 in
theorem spread_lo_testBit : ∀ b < 256, ∀ i < 16,
    Nat.testBit ((spread b >>> 49) &&& 0x5555) i =
      (decide (i % 2 = 0) && Nat.testBit b (i / 2)) := by decide

set_option maxHeartbeats 1000000 in
set_option maxRecDepth 4000 in
theorem spread_hi_testBit : ∀ b < 256, ∀ i < 16,
    Nat.testBit ((spread b >>> 48) &&& 0xaaaa) i =
      (decide (i % 2 = 1) && Nat.testBit b (i / 2)) := by decide

theorem and_three_eq (w k : Nat) :
    (w >>> k) &&& 3 =
      (Nat.testBit w k).toNat + 2 * (Nat.testBit w (k + 1)).toNat := by
  have h1 : (w >>> k) &&& 3 = (w >>> k) % 4 := by
    have := Nat.and_pow_two_sub_one_eq_mod (w >>> k) 2
    simpa using this
  have h2 : w >>> k = w / 2 ^ k := Nat.shiftRight_eq_div_pow w k
  have h3 : Nat.testBit w k = decide (w / 2 ^ k % 2 = 1) := Nat.testBit_to_div_mod
  have h4 : Nat.testBit w (k + 1) = decide (w / 2 ^ (k + 1) % 2 = 1) :=
    Nat.testBit_to_div_mod
  have h5 : w / 2 ^ (k + 1) = w / 2 ^ k / 2 := by
    rw [pow_succ, Nat.div_div_eq_div_mul]
  rw [h1, h2, h3, h4, h5]
  rcases Nat.mod_two_eq_zero_or_one (w / 2 ^ k) with hm | hm <;>
    rcases Nat.mod_two_eq_zero_or_one (w / 2 ^ k / 2) with hm2 | hm2 <;>
    simp [hm, hm2] <;> omega

theorem ileave_testBit (d p : Nat) (hp : p < 8) :
    Nat.testBit (ileave d) (2 * p) = Nat.testBit d p ∧
    Nat.testBit (ileave d) (2 * p + 1) = Nat.testBit d (8 + p) := by
  have hlo : d % 256 < 256 := Nat.mod_lt _ (by norm_num)
  have hhi : (d >>> 8) % 256 < 256 := Nat.mod_lt _ (by norm_num)
  have e1 := spread_lo_testBit (d % 256) hlo (2 * p) (by omega)
  have e2 := spread_hi_testBit ((d >>> 8) % 256) hhi (2 * p) (by omega)
  have e3 := spread_lo_testBit (d % 256) hlo (2 * p + 1) (by omega)
  have e4 := spread_hi_testBit ((d >>> 8) % 256) hhi (2 * p + 1) (by omega)
  have hmod : ∀ x j, j < 8 → Nat.testBit (x % 256) j = Nat.testBit x j := by
    intro x j hj
    have : (256 : Nat) = 2 ^ 8 := by norm_num
    rw [this, Nat.testBit_mod_two_pow]
    simp [hj]
  have hdiv2 : (2 * p) / 2 = p := by omega
  have hdiv2' : (2 * p + 1) / 2 = p := by omega
  have hmod2 : (2 * p) % 2 = 0 := by omega
  have hmod2' : (2 * p + 1) % 2 = 1 := by omega
  rw [hdiv2, hmod2] at e1 e2
  rw [hdiv2', hmod2'] at e3 e4
  constructor
  · rw [ileave, Nat.testBit_lor, e1, e2]
    simp [hmod _ _ hp]
  · rw [ileave, Nat.testBit_lor, e3, e4]
    simp [hmod _ _ hp, Nat.testBit_shiftRight]

theorem rev16_testBit : ∀ x : Nat, ∀ p : Nat, p < 8 →
    (Nat.testBit (rev16 x) p = Nat.testBit x (7 - p) ∧
     Nat.testBit (rev16 x) (8 + p) = Nat.testBit x (15 - p)) := by
  intro x p hp
  interval_cases p <;>
    constructor <;>
    · simp only [rev16, Nat.testBit_lor, Nat.testBit_land, Nat.testBit_shiftRight,
        Nat.testBit_shiftLeft]
      norm_num [Nat.testBit_to_div_mod]

theorem fetchCharacterData_mirror (w p : Nat) (hp : p < 8) :
    (fetchCharacterData false w >>> (2 * p)) &&& 3 =
      (fetchCharacterData true w >>> (2 * (7 - p))) &&& 3 := by
  have hq : 7 - p < 8 := by omega
  have hF : fetchCharacterData false w = ileave (rev16 w) := rfl
  have hT : fetchCharacterData true w = ileave w := rfl
  rw [and_three_eq, and_three_eq, hF, hT]
  have i1 := ileave_testBit (rev16 w) p hp
  have i2 := ileave_testBit w (7 - p) hq
  have r1 := rev16_testBit w p hp
  have h8 : 8 + (7 - p) = 15 - p := by omega
  rw [i1.1, i1.2, i2.1, i2.2, r1.1, r1.2, h8]

theorem decodeGo_length (mode n : Nat) (st : Nat × Nat × Nat × Nat) :
    (decodeGo mode n st).length = n := by
  induction n generalizing st with
  | zero => rfl
  | succ m ih =>
    obtain ⟨d0, d1, d2, d3⟩ := st
    simp [decodeGo, ih]

theorem decodeGo_getD (mode : Nat) :
    ∀ n p, p < n → ∀ d0 d1 d2 d3,
      (decodeGo mode n (d0, d1, d2, d3)).getD p 0 =
        runExtractColor mode (d0 >>> (2 * p)) (d1 >>> (2 * p))
          (d2 >>> (2 * p)) (d3 >>> (2 * p)) := by
  intro n
  induction n with
  | zero => intro p hp; omega
  | succ m ih =>
    intro p hp d0 d1 d2 d3
    cases p with
    | zero => simp [decodeGo]
    | succ q =>
      have hq : q < m := by omega
      simp only [decodeGo, List.getD_cons_succ]
      rw [ih q hq]
      have hs : ∀ x : Nat, (x >>> 2) >>> (2 * q) = x >>> (2 * (q + 1)) := by
        intro x
        rw [← Nat.shiftRight_add]
        congr 1
        omega
      rw [hs, hs, hs, hs]

/-- C2.  For every 16-bit bit-plane word (and every 2/4/8-bpp plane-word
vector), the 8-pixel color-index sequence decoded with the
horizontal-mirror flag clear is the exact reverse of the sequence decoded
from the same words with the mirror flag set. -/
theorem c2_decode_mirror_reverse : ∀ mode, mode < 3 → ∀ w0 w1 w2 w3 : Nat,
    decodeTileRow mode false w0 w1 w2 w3 =
      (decodeTileRow mode true w0 w1 w2 w3).reverse := by
  intro mode _ w0 w1 w2 w3
  have hlF : (decodeTileRow mode false w0 w1 w2 w3).length = 8 := by
    simp [decodeTileRow, decodeGo_length]
  have hlT : (decodeTileRow mode true w0 w1 w2 w3).length = 8 := by
    simp [decodeTileRow, decodeGo_length]
  apply List.ext_getElem
  · simp [hlF, hlT]
  · intro i h1 h2
    have hi : i < 8 := by omega
    rw [List.getElem_reverse]
    rw [← List.getD_eq_getElem _ 0 h1]
    rw [← List.getD_eq_getElem _ 0 (by omega : (decodeTileRow mode true w0 w1 w2 w3).length - 1 - i < (decodeTileRow mode true w0 w1 w2 w3).length)]
    have h71 : (decodeTileRow mode true w0 w1 w2 w3).length - 1 - i = 7 - i := by omega
    rw [h71]
    simp only [decodeTileRow]
    rw [decodeGo_getD mode 8 i hi, decodeGo_getD mode 8 (7 - i) (by omega)]
    simp only [runExtractColor]
    rw [fetchCharacterData_mirror w0 i hi, fetchCharacterData_mirror w1 i hi,
      fetchCharacterData_mirror w2 i hi, fetchCharacterData_mirror w3 i hi]

/-! ## C10: injectivity of the identity key builder -/

theorem lor_mul_pow_eq_add : ∀ (k a b : Nat), a < 2 ^ k → a ||| b * 2 ^ k = a + b * 2 ^ k := by
  intro k
  induction k with
  | zero =>
    intro a b ha
    have ha0 : a = 0 := by omega
    subst ha0
    simp
  | succ m ih =>
    intro a b ha
    have hbit : Nat.bit (a.testBit 0) (a >>> 1) = a := Nat.bit_testBit_zero_shiftRight_one a
    have hb2 : b * 2 ^ (m + 1) = Nat.bit false (b * 2 ^ m) := by
      rw [Nat.bit_val]
      simp [pow_succ]
      ring
    have ha2 : a >>> 1 < 2 ^ m := by
      have : a >>> 1 = a / 2 := Nat.shiftRight_one a
      rw [this]
      have hstep : (2 : Nat) ^ (m + 1) = 2 ^ m * 2 := pow_succ 2 m
      omega
    calc a ||| b * 2 ^ (m + 1)
        = Nat.bit (a.testBit 0) (a >>> 1) ||| Nat.bit false (b * 2 ^ m) := by
          rw [hbit, hb2]
      _ = Nat.bit (a.testBit 0 || false) ((a >>> 1) ||| b * 2 ^ m) := Nat.lor_bit _ _ _ _
      _ = Nat.bit (a.testBit 0) ((a >>> 1) + b * 2 ^ m) := by rw [Bool.or_false, ih _ b ha2]
      _ = a + b * 2 ^ (m + 1) := by
          rw [Nat.bit_val]
          have hv : 2 * (a >>> 1) + (a.testBit 0).toNat = a := by
            have := Nat.bit_val (a.testBit 0) (a >>> 1)
            rw [hbit] at this
            omega
          have hbb : b * 2 ^ (m + 1) = 2 * (b * 2 ^ m) := by
            rw [pow_succ]
            ring
          omega

theorem hdMakeKey_linear (b c pal bpp g h v : Nat)
    (hb : b < 4) (hc : c < 1024) (hpal : pal < 65536) (hbpp : bpp < 4)
    (hg : g < 8) (hh : h < 2) (hv : v < 2) :
    hdMakeKey b bpp c pal g h v =
      b + 4 * c + 4096 * pal + 268435456 * bpp + 1073741824 * h +
        2147483648 * v + 4294967296 * g := by
  have m1 : b &&& 0x3 = b := by
    have := Nat.and_pow_two_sub_one_eq_mod b 2
    simp at this
    rw [show (0x3 : Nat) = 3 from rfl, this]
    omega
  have m2 : c &&& 0x3ff = c := by
    have := Nat.and_pow_two_sub_one_eq_mod c 10
    norm_num at this
    rw [this]
    omega
  have m3 : pal &&& 0xffff = pal := by
    have := Nat.and_pow_two_sub_one_eq_mod pal 16
    norm_num at this
    rw [this]
    omega
  have m4 : bpp &&& 0x3 = bpp := by
    have := Nat.and_pow_two_sub_one_eq_mod bpp 2
    norm_num at this
    rw [this]
    omega
  have m5 : h &&& 0x1 = h := by
    rw [show (0x1 : Nat) = 1 from rfl, Nat.and_one_is_mod]
    omega
  have m6 : v &&& 0x1 = v := by
    rw [show (0x1 : Nat) = 1 from rfl, Nat.and_one_is_mod]
    omega
  have m7 : g &&& 0x7 = g := by
    have := Nat.and_pow_two_sub_one_eq_mod g 3
    norm_num at this
    rw [this]
    omega
  unfold hdMakeKey
  rw [m1, m2, m3, m4, m5, m6, m7]
  rw [Nat.shiftLeft_eq, Nat.shiftLeft_eq, Nat.shiftLeft_eq, Nat.shiftLeft_eq,
    Nat.shiftLeft_eq, Nat.shiftLeft_eq]
  rw [lor_mul_pow_eq_add 2 b c (by omega)]
  rw [lor_mul_pow_eq_add 12 (b + c * 2 ^ 2) pal (by norm_num; omega)]
  rw [lor_mul_pow_eq_add 28 (b + c * 2 ^ 2 + pal * 2 ^ 12) bpp (by norm_num; omega)]
  rw [lor_mul_pow_eq_add 30 (b + c * 2 ^ 2 + pal * 2 ^ 12 + bpp * 2 ^ 28) h
    (by norm_num; omega)]
  rw [lor_mul_pow_eq_add 31 (b + c * 2 ^ 2 + pal * 2 ^ 12 + bpp * 2 ^ 28 + h * 2 ^ 30) v
    (by norm_num; omega)]
  rw [lor_mul_pow_eq_add 32
    (b + c * 2 ^ 2 + pal * 2 ^ 12 + bpp * 2 ^ 28 + h * 2 ^ 30 + v * 2 ^ 31) g
    (by norm_num; omega)]
  norm_num
  ring

/-- C10.  `hdMakeKey` is injective on its intended domain: with bgId < 4,
bppIndex < 4, character < 1024, palette < 65536, paletteGroup < 8 and
one-bit mirror flags, equal keys force equal argument tuples. -/
theorem c10_hdMakeKey_injective
    (b c pal bpp g h v b' c' pal' bpp' g' h' v' : Nat)
    (hb : b < 4) (hc : c < 1024) (hpal : pal < 65536) (hbpp : bpp < 4)
    (hg : g < 8) (hh : h < 2) (hv : v < 2)
    (hb' : b' < 4) (hc' : c' < 1024) (hpal' : pal' < 65536) (hbpp' : bpp' < 4)
    (hg' : g' < 8) (hh' : h' < 2) (hv' : v' < 2)
    (heq : hdMakeKey b bpp c pal g h v = hdMakeKey b' bpp' c' pal' g' h' v') :
    b = b' ∧ bpp = bpp' ∧ c = c' ∧ pal = pal' ∧ g = g' ∧ h = h' ∧ v = v' := by
  rw [hdMakeKey_linear b c pal bpp g h v hb hc hpal hbpp hg hh hv,
    hdMakeKey_linear b' c' pal' bpp' g' h' v' hb' hc' hpal' hbpp' hg' hh' hv'] at heq
  refine ⟨?_, ?_, ?_, ?_, ?_, ?_, ?_⟩ <;> omega

/-- Witness for C10 at a concrete pair of argument tuples. -/
theorem c10_hdMakeKey_injective_witness :
    (1 : Nat) < 4 ∧
      (1 = 1 ∧ 2 = 2 ∧ 700 = 700 ∧ 40000 = 40000 ∧ 5 = 5 ∧ 1 = 1 ∧ 0 = 0) :=
  ⟨by decide,
   c10_hdMakeKey_injective 1 700 40000 2 5 1 0 1 700 40000 2 5 1 0
     (by decide) (by decide) (by decide) (by decide) (by decide) (by decide) (by decide)
     (by decide) (by decide) (by decide) (by decide) (by decide) (by decide) (by decide)
     rfl⟩

/-- Witness for C2 at a concrete word vector. -/
theorem c2_decode_mirror_reverse_witness :
    (1 : Nat) < 3 ∧
      decodeTileRow 1 false 0x1234 0xBEEF 0 0 =
        (decodeTileRow 1 true 0x1234 0xBEEF 0 0).reverse :=
  ⟨by decide, c2_decode_mirror_reverse 1 (by decide) 0x1234 0xBEEF 0 0⟩

/-! ## C4: presence resolution under budget starvation -/

theorem hdInit_initialized (env : Env) (g : Globals) (h : g.hdInitialized = true) :
    hdInit env g = g := by
  simp [hdInit, h]

theorem hdHasOrLoadCore_preserves (env : Env) (k : Nat) (sf : String) (g : Globals) :
    (hdHasOrLoadCore env k sf g).2.hdInitialized = g.hdInitialized ∧
    (hdHasOrLoadCore env k sf g).2.hdBasePath = g.hdBasePath := by
  unfold hdHasOrLoadCore
  cases h1 : alookup g.hdStemByKey k <;> simp only [h1] <;>
    · cases h2 : slookup g.hdCache _ <;> simp only [h2]
      · split <;> simp
      · split <;> simp

theorem hdHasOrLoadCore_idem (env : Env) (k : Nat) (sf sf' : String) (g : Globals) :
    (hdHasOrLoadCore env k sf'
        { (hdHasOrLoadCore env k sf g).2 with hdPresenceBudget := 0 }).1 =
      (hdHasOrLoadCore env k sf g).1 := by
  classical
  unfold hdHasOrLoadCore
  cases h1 : alookup g.hdStemByKey k with
  | some s =>
    simp only [h1]
    cases h2 : slookup g.hdCache s with
    | some e =>
      simp only [h2]
      by_cases h3 : ¬e.checkedPresence ∧ 0 < g.hdPresenceBudget
      · rw [if_pos (by simpa using h3)]
        simp only [h1, slookup_sinsert_self]
        rw [if_neg (by simp)]
      · rw [if_neg (by simpa using h3)]
        simp only [h1, h2]
        rw [if_neg (by simp)]
    | none =>
      simp only [h2]
      by_cases h3 : 0 < g.hdPresenceBudget
      · rw [if_pos (by simpa using h3)]
        simp only [h1, slookup_sinsert_self]
        rw [if_neg (by simp)]
      · rw [if_neg (by simpa using h3)]
        simp only [h1, slookup_sinsert_self]
        rw [if_neg (by simp)]
  | none =>
    simp only [h1]
    cases h2 : slookup g.hdCache sf with
    | some e =>
      simp only [h2]
      by_cases h3 : ¬e.checkedPresence ∧ 0 < g.hdPresenceBudget
      · rw [if_pos (by simpa using h3)]
        simp only [alookup_ainsert_self, slookup_sinsert_self]
        rw [if_neg (by simp)]
      · rw [if_neg (by simpa using h3)]
        simp only [alookup_ainsert_self, h2]
        rw [if_neg (by simp)]
    | none =>
      simp only [h2]
      by_cases h3 : 0 < g.hdPresenceBudget
      · rw [if_pos (by simpa using h3)]
        simp only [alookup_ainsert_self, slookup_sinsert_self]
        rw [if_neg (by simp)]
      · rw [if_neg (by simpa using h3)]
        simp only [alookup_ainsert_self, slookup_sinsert_self]
        rw [if_neg (by simp)]

theorem hdHasOrLoadCore_deferred (env : Env) (k : Nat) (sf st : String) (g : Globals)
    (hstem : (match alookup g.hdStemByKey k with | some s => s | none => sf) = st)
    (hb : g.hdPresenceBudget = 0) (hmiss : slookup g.hdCache st = none) :
    (hdHasOrLoadCore env k sf g).1 = false ∧
    slookup (hdHasOrLoadCore env k sf g).2.hdCache st =
      some { present := false, checkedPresence := false } := by
  unfold hdHasOrLoadCore
  cases h1 : alookup g.hdStemByKey k with
  | some s =>
    simp only [h1] at hstem ⊢
    subst hstem
    simp only [hmiss]
    rw [if_neg (by omega)]
    exact ⟨rfl, slookup_sinsert_self _ _ _⟩
  | none =>
    simp only [h1] at hstem ⊢
    subst hstem
    simp only [hmiss]
    rw [if_neg (by omega)]
    exact ⟨rfl, slookup_sinsert_self _ _ _⟩

/-- C4.  With the cache already initialized: (a) calling `hdHasOrLoad`
twice for the same identity, with the presence budget exhausted after the
first call, returns the same boolean both times; (b) with the budget
exhausted from the start, a brand-new identity is reported absent and the
entry is stored with its presence check still pending (deferred to a
later frame). -/
theorem c4_hdHasOrLoad_budget_idempotent (env : Env) (bg : Bg) (t : Tile) (g : Globals)
    (hinit : g.hdInitialized = true) (hbase : ¬g.hdBasePath = "") :
    ((hdHasOrLoad env bg t
        { (hdHasOrLoad env bg t g).2 with hdPresenceBudget := 0 }).1 =
      (hdHasOrLoad env bg t g).1) ∧
    (g.hdPresenceBudget = 0 →
      slookup g.hdCache (stemOf bg t g) = none →
      (hdHasOrLoad env bg t g).1 = false ∧
      slookup (hdHasOrLoad env bg t g).2.hdCache (stemOf bg t g) =
        some { present := false, checkedPresence := false }) := by
  have hfold : hdHasOrLoad env bg t g =
      hdHasOrLoadCore env (tileKey bg t) (hdMakeStem g.hdBasePath bg t) g := by
    rw [hdHasOrLoad, hdInit_initialized env g hinit, if_neg hbase]
  have hpres := hdHasOrLoadCore_preserves env (tileKey bg t)
    (hdMakeStem g.hdBasePath bg t) g
  constructor
  · rw [hfold]
    have hfold2 : hdHasOrLoad env bg t
        { (hdHasOrLoadCore env (tileKey bg t) (hdMakeStem g.hdBasePath bg t) g).2 with
            hdPresenceBudget := 0 } =
        hdHasOrLoadCore env (tileKey bg t) (hdMakeStem g.hdBasePath bg t)
          { (hdHasOrLoadCore env (tileKey bg t) (hdMakeStem g.hdBasePath bg t) g).2 with
              hdPresenceBudget := 0 } := by
      rw [hdHasOrLoad, hdInit_initialized _ _ (by simpa [hpres.1] using hinit),
        if_neg (by simpa [hpres.2] using hbase)]
      simp only [hpres.2]
    rw [hfold2]
    exact hdHasOrLoadCore_idem env (tileKey bg t) _ _ g
  · intro hb hmiss
    rw [hfold]
    exact hdHasOrLoadCore_deferred env (tileKey bg t) (hdMakeStem g.hdBasePath bg t)
      (stemOf bg t g) g rfl hb hmiss

/-- Witness for C4 at a concrete initialized state with zero budget. -/
theorem c4_hdHasOrLoad_budget_idempotent_witness :
    (({ hdInitialized := true, hdBasePath := "p" } : Globals).hdInitialized = true) ∧
    (((hdHasOrLoad {} {} {}
        { (hdHasOrLoad {} {} {} { hdInitialized := true, hdBasePath := "p" }).2 with
            hdPresenceBudget := 0 }).1 =
      (hdHasOrLoad {} {} {} { hdInitialized := true, hdBasePath := "p" }).1) ∧
     (({ hdInitialized := true, hdBasePath := "p" } : Globals).hdPresenceBudget = 0 →
       slookup ({ hdInitialized := true, hdBasePath := "p" } : Globals).hdCache
         (stemOf {} {} { hdInitialized := true, hdBasePath := "p" }) = none →
       (hdHasOrLoad {} {} {} { hdInitialized := true, hdBasePath := "p" }).1 = false ∧
       slookup (hdHasOrLoad {} {} {}
           { hdInitialized := true, hdBasePath := "p" }).2.hdCache
         (stemOf {} {} { hdInitialized := true, hdBasePath := "p" }) =
         some { present := false, checkedPresence := false })) :=
  ⟨rfl, c4_hdHasOrLoad_budget_idempotent {} {} {}
    { hdInitialized := true, hdBasePath := "p" } rfl (by decide)⟩

/-! ## C5: export-pipeline dedup invariants -/

theorem slookup_none_not_mem {V : Type} (l : List (String × V)) (k : String)
    (h : slookup l k = none) : k ∉ l.map Prod.fst := by
  induction l with
  | nil => simp
  | cons a r ih =>
    obtain ⟨a1, a2⟩ := a
    simp only [slookup] at h
    by_cases ha : a1 = k
    · rw [if_pos ha] at h
      exact absurd h (by simp)
    · rw [if_neg ha] at h
      simp only [List.map_cons, List.mem_cons]
      rintro (hc | hc)
      · exact ha hc.symm
      · exact ih h hc

theorem nodup_sinsert {V : Type} (l : List (String × V)) (k : String) (v : V)
    (h : (l.map Prod.fst).Nodup) (hnone : slookup l k = none) :
    ((sinsert l k v).map Prod.fst).Nodup := by
  unfold sinsert
  rw [hnone]
  rw [List.map_append]
  refine List.nodup_append.mpr ⟨h, by simp, ?_⟩
  intro a ha hb
  simp only [List.map_cons, List.map_nil, List.mem_singleton] at hb
  exact slookup_none_not_mem l k hnone (hb ▸ ha)

theorem dumpTile_nodup (env : Env) (bg : Bg) (t : Tile) (g : Globals)
    (h : (g.hdDumpPending.map Prod.fst).Nodup) :
    (((dumpTile env bg t g).hdDumpPending).map Prod.fst).Nodup := by
  unfold dumpTile
  by_cases h1 : nmem g.hdDumpSeenKeys (dumpTileKey bg t)
  · simpa [h1] using h
  · simp only [h1, Bool.false_eq_true, if_false]
    by_cases h2 : g.hdDumpBudget = 0
    · simpa [h2] using h
    · simp only [h2, if_false]
      cases hd : env.dumpDir with
      | none => simpa using h
      | some dir =>
        simp only
        by_cases h3 : smem g.hdDumpSeen (dumpTileFilename dir bg t)
        · simpa [h3] using h
        · simp only [h3, Bool.false_eq_true, if_false]
          by_cases h4 : (slookup g.hdDumpPending (dumpTileFilename dir bg t)).isSome
          · simpa [h4] using h
          · simp only [h4, Bool.false_eq_true, if_false]
            have h4' : slookup g.hdDumpPending (dumpTileFilename dir bg t) = none := by
              cases hh : slookup g.hdDumpPending (dumpTileFilename dir bg t)
              · rfl
              · rw [hh] at h4
                simp at h4
            exact nodup_sinsert _ _ _ h h4'

theorem dumpSpriteTile_nodup (env : Env) (s : SpriteIn) (tx : Nat) (g : Globals)
    (h : (g.spriteDumpPending.map Prod.fst).Nodup) :
    (((dumpSpriteTile env s tx g).spriteDumpPending).map Prod.fst).Nodup := by
  unfold dumpSpriteTile
  by_cases h0 : g.spriteDumpBudget = 0
  · simpa [h0] using h
  · simp only [h0, if_false]
    by_cases h1 : nmem g.spriteDumpSeenKeys (dumpSpriteKey s tx)
    · simpa [h1] using h
    · simp only [h1, Bool.false_eq_true, if_false]
      cases hd : env.dumpDir with
      | none => simpa using h
      | some dir =>
        simp only
        by_cases h3 : smem g.spriteDumpSeen (dumpSpriteFilename dir s tx)
        · simpa [h3] using h
        · simp only [h3, Bool.false_eq_true, if_false]
          by_cases h4 : (slookup g.spriteDumpPending (dumpSpriteFilename dir s tx)).isSome
          · simpa [h4] using h
          · simp only [h4, Bool.false_eq_true, if_false]
            have h4' : slookup g.spriteDumpPending (dumpSpriteFilename dir s tx) = none := by
              cases hh : slookup g.spriteDumpPending (dumpSpriteFilename dir s tx)
              · rfl
              · rw [hh] at h4
                simp at h4
            exact nodup_sinsert _ _ _ h h4'

theorem dumpTile_seen_noop (env : Env) (bg : Bg) (t : Tile) (g : Globals)
    (h : nmem g.hdDumpSeenKeys (dumpTileKey bg t) = true ∨
      (∀ dir, env.dumpDir = some dir →
        smem g.hdDumpSeen (dumpTileFilename dir bg t) = true ∨
        (slookup g.hdDumpPending (dumpTileFilename dir bg t)).isSome = true)) :
    (dumpTile env bg t g).hdDumpPending = g.hdDumpPending ∧
    (dumpTile env bg t g).hdDumpOrder = g.hdDumpOrder ∧
    (dumpTile env bg t g).hdDumpBudget = g.hdDumpBudget := by
  unfold dumpTile
  by_cases h1 : nmem g.hdDumpSeenKeys (dumpTileKey bg t)
  · simp [h1]
  · simp only [h1, Bool.false_eq_true, if_false]
    by_cases h2 : g.hdDumpBudget = 0
    · simp [h2]
    · simp only [h2, if_false]
      cases hd : env.dumpDir with
      | none => simp
      | some dir =>
        rcases h with h | h
        · exact absurd h (by simpa using h1)
        · rcases h dir hd with h3 | h3
          · simp [h3]
          · by_cases hs : smem g.hdDumpSeen (dumpTileFilename dir bg t)
            · simp [hs]
            · simp only [hs, Bool.false_eq_true, if_false]
              simp [h3]

theorem dumpSpriteTile_seen_noop (env : Env) (s : SpriteIn) (tx : Nat) (g : Globals)
    (h : nmem g.spriteDumpSeenKeys (dumpSpriteKey s tx) = true ∨
      (∀ dir, env.dumpDir = some dir →
        smem g.spriteDumpSeen (dumpSpriteFilename dir s tx) = true ∨
        (slookup g.spriteDumpPending (dumpSpriteFilename dir s tx)).isSome = true)) :
    (dumpSpriteTile env s tx g).spriteDumpPending = g.spriteDumpPending ∧
    (dumpSpriteTile env s tx g).spriteDumpOrder = g.spriteDumpOrder ∧
    (dumpSpriteTile env s tx g).spriteDumpBudget = g.spriteDumpBudget := by
  unfold dumpSpriteTile
  by_cases h0 : g.spriteDumpBudget = 0
  · simp [h0]
  · simp only [h0, if_false]
    by_cases h1 : nmem g.spriteDumpSeenKeys (dumpSpriteKey s tx)
    · simp [h1]
    · simp only [h1, Bool.false_eq_true, if_false]
      cases hd : env.dumpDir with
      | none => simp
      | some dir =>
        rcases h with h | h
        · exact absurd h (by simpa using h1)
        · rcases h dir hd with h3 | h3
          · simp [h3]
          · by_cases hs : smem g.spriteDumpSeen (dumpSpriteFilename dir s tx)
            · simp [hs]
            · simp only [hs, Bool.false_eq_true, if_false]
              simp [h3]

/-- C5.  Along any sequence of `dumpTile` / `dumpSpriteTile` calls the
pending maps never hold two entries with one computed filename (the
filename key multiset stays duplicate-free, from any duplicate-free
state, in particular from the empty session-start state), and a call
whose identity was already seen — by integer key, or by filename for
every resolvable dump directory — changes neither the pending map, the
insertion-order list, nor the per-frame dump budget. -/
theorem c5_dump_dedup_invariants (env : Env) (bg : Bg) (t : Tile) (s : SpriteIn)
    (tx : Nat) (g : Globals) (calls : List (Bg × Tile))
    (sprites : List (SpriteIn × Nat)) :
    ((g.hdDumpPending.map Prod.fst).Nodup →
      (((List.foldl (fun acc c => dumpTile env c.1 c.2 acc) g calls).hdDumpPending).map
        Prod.fst).Nodup) ∧
    ((g.spriteDumpPending.map Prod.fst).Nodup →
      (((List.foldl (fun acc c => dumpSpriteTile env c.1 c.2 acc) g
          sprites).spriteDumpPending).map Prod.fst).Nodup) ∧
    (nmem g.hdDumpSeenKeys (dumpTileKey bg t) = true ∨
      (∀ dir, env.dumpDir = some dir →
        smem g.hdDumpSeen (dumpTileFilename dir bg t) = true ∨
        (slookup g.hdDumpPending (dumpTileFilename dir bg t)).isSome = true) →
      (dumpTile env bg t g).hdDumpPending = g.hdDumpPending ∧
      (dumpTile env bg t g).hdDumpOrder = g.hdDumpOrder ∧
      (dumpTile env bg t g).hdDumpBudget = g.hdDumpBudget) ∧
    (nmem g.spriteDumpSeenKeys (dumpSpriteKey s tx) = true ∨
      (∀ dir, env.dumpDir = some dir →
        smem g.spriteDumpSeen (dumpSpriteFilename dir s tx) = true ∨
        (slookup g.spriteDumpPending (dumpSpriteFilename dir s tx)).isSome = true) →
      (dumpSpriteTile env s tx g).spriteDumpPending = g.spriteDumpPending ∧
      (dumpSpriteTile env s tx g).spriteDumpOrder = g.spriteDumpOrder ∧
      (dumpSpriteTile env s tx g).spriteDumpBudget = g.spriteDumpBudget) := by
  refine ⟨?_, ?_, ?_, ?_⟩
  · intro h
    induction calls generalizing g with
    | nil => simpa using h
    | cons c r ih => exact ih _ (dumpTile_nodup env c.1 c.2 g h)
  · intro h
    induction sprites generalizing g with
    | nil => simpa using h
    | cons c r ih => exact ih _ (dumpSpriteTile_nodup env c.1 c.2 g h)
  · intro h
    exact dumpTile_seen_noop env bg t g (by tauto)
  · intro h
    exact dumpSpriteTile_seen_noop env s tx g (by tauto)

/-! ## C8: state after power -/

/-- Counterexample to C8 as stated: `power` leaves the dump pending map
(and the integer-key seen set and the Mode 7 pending map) untouched, so
after a power cycle of both units a pending background dump survives. -/
theorem c8_power_pending_counterexample :
    (powerObjectGlobals (powerBackgroundGlobals
        { hdDumpPending := [("x", {})] })).hdDumpPending ≠ [] := by
  simp [powerBackgroundGlobals, powerObjectGlobals]

/-- C8 (amended).  After the background and object power operations, the
HD cache maps (entry/stem/pointer/manifest/hash), the dump seen-filename
set, the dump insertion-order list, the dump budget, the Mode 7 seen set
and build state, and all sprite dump state are reset — but the dump
pending map, the integer-key seen set, and the Mode 7 pending map are
carried over unchanged. -/
theorem c8_power_clears_cache_state (g : Globals) :
    (powerObjectGlobals (powerBackgroundGlobals g)).hdCache = [] ∧
    (powerObjectGlobals (powerBackgroundGlobals g)).hdStemByKey = [] ∧
    (powerObjectGlobals (powerBackgroundGlobals g)).hdEntryByKey = [] ∧
    (powerObjectGlobals (powerBackgroundGlobals g)).manifestMap = [] ∧
    (powerObjectGlobals (powerBackgroundGlobals g)).manifestLoaded = false ∧
    (powerObjectGlobals (powerBackgroundGlobals g)).manifestAvailable = false ∧
    (powerObjectGlobals (powerBackgroundGlobals g)).hdKeyToHash = [] ∧
    (powerObjectGlobals (powerBackgroundGlobals g)).hdInitialized = false ∧
    (powerObjectGlobals (powerBackgroundGlobals g)).hdBasePath = "" ∧
    (powerObjectGlobals (powerBackgroundGlobals g)).hdDumpSeen = [] ∧
    (powerObjectGlobals (powerBackgroundGlobals g)).hdDumpOrder = [] ∧
    (powerObjectGlobals (powerBackgroundGlobals g)).hdDumpBudget = 0 ∧
    (powerObjectGlobals (powerBackgroundGlobals g)).m7DumpSeen = [] ∧
    (powerObjectGlobals (powerBackgroundGlobals g)).m7Build = {} ∧
    (powerObjectGlobals (powerBackgroundGlobals g)).spriteDumpPending = [] ∧
    (powerObjectGlobals (powerBackgroundGlobals g)).spriteDumpSeen = [] ∧
    (powerObjectGlobals (powerBackgroundGlobals g)).spriteDumpSeenKeys = [] ∧
    (powerObjectGlobals (powerBackgroundGlobals g)).spriteDumpOrder = [] ∧
    (powerObjectGlobals (powerBackgroundGlobals g)).spriteDumpBudget = 0 ∧
    (powerObjectGlobals (powerBackgroundGlobals g)).hdDumpPending = g.hdDumpPending ∧
    (powerObjectGlobals (powerBackgroundGlobals g)).hdDumpSeenKeys = g.hdDumpSeenKeys ∧
    (powerObjectGlobals (powerBackgroundGlobals g)).m7DumpPending = g.m7DumpPending := by
  simp [powerBackgroundGlobals, powerObjectGlobals]

/-! ## C9: state after flush -/

/-- Counterexample to C9 as stated: the flush never clears the seen
sets; a seen filename survives a flush with pending work. -/
theorem c9_flush_seen_counterexample :
    (flushHDTileDumpCache
        { hdDumpPending := [("x", {})], hdDumpSeen := ["x"] }).hdDumpSeen ≠ [] := by
  simp [flushHDTileDumpCache]

/-- C9 (amended).  After a flush with pending background and sprite
tiles, the pending maps (background, sprite, Mode 7) and the two
insertion-order lists are empty, while the seen filename and integer-key
sets of both pipelines are unchanged (they are not cleared). -/
theorem c9_flush_clears_pending_only (g : Globals)
    (hbg : ¬g.hdDumpPending.isEmpty = true)
    (hspr : ¬g.spriteDumpPending.isEmpty = true) :
    (flushHDTileDumpCache g).hdDumpPending = [] ∧
    (flushHDTileDumpCache g).spriteDumpPending = [] ∧
    (flushHDTileDumpCache g).m7DumpPending = [] ∧
    (flushHDTileDumpCache g).hdDumpOrder = [] ∧
    (flushHDTileDumpCache g).spriteDumpOrder = [] ∧
    (flushHDTileDumpCache g).hdDumpSeen = g.hdDumpSeen ∧
    (flushHDTileDumpCache g).hdDumpSeenKeys = g.hdDumpSeenKeys ∧
    (flushHDTileDumpCache g).spriteDumpSeen = g.spriteDumpSeen ∧
    (flushHDTileDumpCache g).spriteDumpSeenKeys = g.spriteDumpSeenKeys := by
  by_cases h3 : g.m7DumpPending.isEmpty = true <;>
    · simp only [flushHDTileDumpCache, hbg, hspr, if_false]
      simp_all [List.isEmpty_iff]

/-- Witness for C9 at a concrete state with pending work. -/
theorem c9_flush_clears_pending_only_witness :
    (¬(({ hdDumpPending := [("x", {})], spriteDumpPending := [("y", {})],
          hdDumpSeen := ["x"] } : Globals).hdDumpPending).isEmpty = true) ∧
    ((flushHDTileDumpCache
        { hdDumpPending := [("x", {})], spriteDumpPending := [("y", {})],
          hdDumpSeen := ["x"] }).hdDumpPending = [] ∧
     (flushHDTileDumpCache
        { hdDumpPending := [("x", {})], spriteDumpPending := [("y", {})],
          hdDumpSeen := ["x"] }).spriteDumpPending = [] ∧
     (flushHDTileDumpCache
        { hdDumpPending := [("x", {})], spriteDumpPending := [("y", {})],
          hdDumpSeen := ["x"] }).m7DumpPending = [] ∧
     (flushHDTileDumpCache
        { hdDumpPending := [("x", {})], spriteDumpPending := [("y", {})],
          hdDumpSeen := ["x"] }).hdDumpOrder = [] ∧
     (flushHDTileDumpCache
        { hdDumpPending := [("x", {})], spriteDumpPending := [("y", {})],
          hdDumpSeen := ["x"] }).spriteDumpOrder = [] ∧
     (flushHDTileDumpCache
        { hdDumpPending := [("x", {})], spriteDumpPending := [("y", {})],
          hdDumpSeen := ["x"] }).hdDumpSeen =
       ({ hdDumpPending := [("x", {})], spriteDumpPending := [("y", {})],
          hdDumpSeen := ["x"] } : Globals).hdDumpSeen ∧
     (flushHDTileDumpCache
        { hdDumpPending := [("x", {})], spriteDumpPending := [("y", {})],
          hdDumpSeen := ["x"] }).hdDumpSeenKeys =
       ({ hdDumpPending := [("x", {})], spriteDumpPending := [("y", {})],
          hdDumpSeen := ["x"] } : Globals).hdDumpSeenKeys ∧
     (flushHDTileDumpCache
        { hdDumpPending := [("x", {})], spriteDumpPending := [("y", {})],
          hdDumpSeen := ["x"] }).spriteDumpSeen =
       ({ hdDumpPending := [("x", {})], spriteDumpPending := [("y", {})],
          hdDumpSeen := ["x"] } : Globals).spriteDumpSeen ∧
     (flushHDTileDumpCache
        { hdDumpPending := [("x", {})], spriteDumpPending := [("y", {})],
          hdDumpSeen := ["x"] }).spriteDumpSeenKeys =
       ({ hdDumpPending := [("x", {})], spriteDumpPending := [("y", {})],
          hdDumpSeen := ["x"] } : Globals).spriteDumpSeenKeys) :=
  ⟨by decide,
   c9_flush_clears_pending_only
     { hdDumpPending := [("x", {})], spriteDumpPending := [("y", {})],
       hdDumpSeen := ["x"] }
     (by decide) (by decide)⟩

/-- Witness for C5 at the empty session-start state. -/
theorem c5_dump_dedup_invariants_witness :
    ((({} : Globals).hdDumpPending.map Prod.fst).Nodup) ∧
    (((List.foldl (fun acc c => dumpTile {} c.1 c.2 acc) {}
        ([] : List (Bg × Tile))).hdDumpPending).map Prod.fst).Nodup :=
  ⟨by simp, (c5_dump_dedup_invariants {} {} {} {} 0 {} [] []).1 (by simp)⟩

/-! ## C6: tilesheet packing -/

theorem foldl_update_miss {α : Type} (xs : List α) (A V : α → Nat) (s : Nat → Nat)
    (p : Nat) (h : ∀ a ∈ xs, A a ≠ p) :
    (xs.foldl (fun acc a => Function.update acc (A a) (V a)) s) p = s p := by
  induction xs generalizing s with
  | nil => rfl
  | cons a r ih =>
    simp only [List.foldl_cons]
    rw [ih _ (fun x hx => h x (List.mem_cons_of_mem a hx))]
    exact Function.update_noteq (fun hc => h a (List.mem_cons_self a r) hc.symm) _ s

theorem foldl_update_hit {α : Type} (xs : List α) (A V : α → Nat) (s : Nat → Nat)
    (p : Nat) (x0 : α) (hnodup : xs.Nodup) (hmem : x0 ∈ xs) (hhit : A x0 = p)
    (huniq : ∀ a ∈ xs, A a = p → a = x0) :
    (xs.foldl (fun acc a => Function.update acc (A a) (V a)) s) p = V x0 := by
  classical
  induction xs generalizing s with
  | nil => simp at hmem
  | cons a r ih =>
    simp only [List.foldl_cons]
    by_cases ha : a = x0
    · subst ha
      have hmiss : ∀ x ∈ r, A x ≠ p := by
        intro x hx hc
        have hxa := huniq x (List.mem_cons_of_mem a hx) hc
        subst hxa
        exact (List.nodup_cons.mp hnodup).1 hx
      rw [foldl_update_miss r A V _ p hmiss]
      rw [← hhit]
      simp [Function.update]
    · have hmem' : x0 ∈ r := by
        rcases List.mem_cons.mp hmem with hc | hc
        · exact absurd hc.symm ha
        · exact hc
      exact ih (Function.update s (A a) (V a)) (List.nodup_cons.mp hnodup).2 hmem'
        (fun x hx hc => huniq x (List.mem_cons_of_mem a hx) hc)

theorem nested_foldl_eq_pairs (ys xs : List Nat)
    (F : (Nat → Nat) → Nat → Nat → (Nat → Nat)) (s : Nat → Nat) :
    (ys.foldl (fun sa y => xs.foldl (fun s2 x => F s2 y x) sa) s) =
      ((ys.flatMap (fun y => xs.map (fun x => (y, x)))).foldl
        (fun acc yx => F acc yx.1 yx.2) s) := by
  induction ys generalizing s with
  | nil => rfl
  | cons a r ih =>
    rw [List.flatMap_cons, List.foldl_append, List.foldl_map, List.foldl_cons, ih]

theorem blitPairs_mem : ∀ y < 8, ∀ x < 8, (y, x) ∈ blitPairs := by decide

theorem blitPairs_bound : ∀ yx ∈ blitPairs, yx.1 < 8 ∧ yx.2 < 8 := by decide

theorem blitPairs_nodup : blitPairs.Nodup := by decide

theorem blitTile_read (s : Nat → Nat) (i : Nat) (e : DumpEntry) (p : Nat) :
    blitTile s i e p = if cellIdx p = i then e.px (pixIdx p) else s p := by
  unfold blitTile
  rw [nested_foldl_eq_pairs (List.range 8) (List.range 8)
    (fun s2 y x => Function.update s2 ((i / 16 * 8 + y) * 128 + i % 16 * 8 + x)
      (e.px (y * 8 + x))) s]
  by_cases hc : cellIdx p = i
  · rw [if_pos hc]
    simp only [cellIdx] at hc
    have := foldl_update_hit blitPairs
      (fun yx => (i / 16 * 8 + yx.1) * 128 + i % 16 * 8 + yx.2)
      (fun yx => e.px (yx.1 * 8 + yx.2)) s p (p / 128 % 8, p % 8)
      blitPairs_nodup
      (blitPairs_mem _ (by omega) _ (by omega))
      (by
        show (i / 16 * 8 + p / 128 % 8) * 128 + i % 16 * 8 + p % 8 = p
        omega)
      (by
        intro yx hyx hyp
        have hb := blitPairs_bound yx hyx
        have hyp' : (i / 16 * 8 + yx.1) * 128 + i % 16 * 8 + yx.2 = p := hyp
        have h1 : yx.1 = p / 128 % 8 := by omega
        have h2 : yx.2 = p % 8 := by omega
        exact Prod.ext h1 h2)
    rw [blitPairs] at this
    rw [this]
    rfl
  · rw [if_neg hc]
    simp only [cellIdx] at hc
    have := foldl_update_miss blitPairs
      (fun yx => (i / 16 * 8 + yx.1) * 128 + i % 16 * 8 + yx.2)
      (fun yx => e.px (yx.1 * 8 + yx.2)) s p
      (by
        intro yx hyx hyp
        have hb := blitPairs_bound yx hyx
        have hyp' : (i / 16 * 8 + yx.1) * 128 + i % 16 * 8 + yx.2 = p := hyp
        exact hc (by omega))
    rw [blitPairs] at this
    rw [this]

theorem getD_take_lt {α : Type} (l : List α) (k i : Nat) (d : α) (h : i < k) :
    (l.take k).getD i d = l.getD i d := by
  by_cases hl : i < l.length
  · rw [List.getD_eq_getElem _ _ (by rw [List.length_take]; omega),
      List.getD_eq_getElem _ _ hl]
    exact List.getElem_take l
  · rw [List.getD_eq_default _ _ (by rw [List.length_take]; omega),
      List.getD_eq_default _ _ (by omega)]

theorem getD_drop_eq {α : Type} (l : List α) (k i : Nat) (d : α) :
    (l.drop k).getD i d = l.getD (k + i) d := by
  by_cases hl : k + i < l.length
  · rw [List.getD_eq_getElem _ _ (by rw [List.length_drop]; omega),
      List.getD_eq_getElem _ _ hl]
    rw [List.getElem_drop]
  · rw [List.getD_eq_default _ _ (by rw [List.length_drop]; omega),
      List.getD_eq_default _ _ (by omega)]

theorem fillSheetGo_read : ∀ (tiles : List DumpEntry) (i : Nat) (s : Nat → Nat) (p : Nat),
    fillSheetGo tiles i s p =
      if i ≤ cellIdx p ∧ cellIdx p < i + tiles.length
      then (tiles.getD (cellIdx p - i) {}).px (pixIdx p)
      else s p := by
  intro tiles
  induction tiles with
  | nil =>
    intro i s p
    rw [if_neg (by simp)]
    rfl
  | cons e r ih =>
    intro i s p
    show fillSheetGo r (i + 1) (blitTile s i e) p = _
    rw [ih (i + 1) (blitTile s i e) p]
    by_cases h1 : i + 1 ≤ cellIdx p ∧ cellIdx p < i + 1 + r.length
    · rw [if_pos h1, if_pos (by simp only [List.length_cons]; omega)]
      have hsub : cellIdx p - i = (cellIdx p - (i + 1)) + 1 := by omega
      rw [hsub]
      rfl
    · rw [if_neg h1, blitTile_read]
      by_cases h2 : cellIdx p = i
      · rw [if_pos h2, if_pos (by simp only [List.length_cons]; omega)]
        rw [show cellIdx p - i = 0 from by omega]
        rfl
      · rw [if_neg h2, if_neg (by simp only [List.length_cons]; omega)]

theorem fillSheet_read (tiles : List DumpEntry) (p : Nat) :
    fillSheet tiles p =
      if cellIdx p < tiles.length
      then (tiles.getD (cellIdx p) {}).px (pixIdx p)
      else 0 := by
  unfold fillSheet
  rw [fillSheetGo_read tiles 0 (fun _ => 0) p]
  by_cases h : cellIdx p < tiles.length
  · rw [if_pos (by omega), if_pos h]
    simp
  · rw [if_neg (by omega), if_neg h]

theorem buildSheetsGo_length : ∀ (fuel : Nat) (l : List DumpEntry), l.length ≤ fuel →
    (buildSheetsGo fuel l).length = (l.length + 255) / 256 := by
  intro fuel
  induction fuel with
  | zero =>
    intro l hl
    have : l = [] := List.eq_nil_of_length_eq_zero (by omega)
    subst this
    rfl
  | succ f ih =>
    intro l hl
    cases l with
    | nil => rfl
    | cons e r =>
      simp only [List.length_cons] at hl
      show (fillSheet _ :: buildSheetsGo f ((e :: r).drop 256)).length = _
      rw [List.length_cons,
        ih ((e :: r).drop 256) (by simp only [List.length_drop, List.length_cons]; omega)]
      simp only [List.length_drop, List.length_cons]
      omega

theorem buildSheetsGo_read : ∀ (fuel : Nat) (l : List DumpEntry), l.length ≤ fuel →
    ∀ (s p : Nat), s < (buildSheetsGo fuel l).length → p < 16384 →
      ((buildSheetsGo fuel l).getD s (fun _ => 0)) p =
        if 256 * s + cellIdx p < l.length
        then (l.getD (256 * s + cellIdx p) {}).px (pixIdx p)
        else 0 := by
  intro fuel
  induction fuel with
  | zero =>
    intro l hl s p hs hp
    have : l = [] := List.eq_nil_of_length_eq_zero (by omega)
    subst this
    simp [buildSheetsGo] at hs
  | succ f ih =>
    intro l hl s p hs hp
    cases l with
    | nil => simp [buildSheetsGo] at hs
    | cons e r =>
      simp only [List.length_cons] at hl
      have hcell : cellIdx p < 256 := by
        simp only [cellIdx]
        omega
      cases s with
      | zero =>
        show ((fillSheet ((e :: r).take 256) :: buildSheetsGo f ((e :: r).drop 256)).getD
          0 (fun _ => 0)) p = _
        rw [List.getD_cons_zero]
        rw [fillSheet_read]
        rw [List.length_take]
        rw [show 256 * 0 + cellIdx p = cellIdx p from by omega]
        simp only [List.length_cons]
        by_cases h : cellIdx p < r.length + 1
        · rw [if_pos (by omega), if_pos h]
          rw [getD_take_lt _ _ _ _ hcell]
        · rw [if_neg (by omega), if_neg h]
      | succ s' =>
        show ((fillSheet ((e :: r).take 256) :: buildSheetsGo f ((e :: r).drop 256)).getD
          (s' + 1) (fun _ => 0)) p = _
        rw [List.getD_cons_succ]
        have hs' : s' < (buildSheetsGo f ((e :: r).drop 256)).length := by
          have h2 := hs
          show s' < (buildSheetsGo f ((e :: r).drop 256)).length
          have : (buildSheetsGo (f + 1) (e :: r)) =
              fillSheet ((e :: r).take 256) :: buildSheetsGo f ((e :: r).drop 256) := rfl
          rw [this] at h2
          simp only [List.length_cons] at h2
          omega
        rw [ih ((e :: r).drop 256)
          (by simp only [List.length_drop, List.length_cons]; omega) s' p hs' hp]
        simp only [List.length_drop, List.length_cons]
        rw [getD_drop_eq]
        by_cases h : 256 * s' + cellIdx p < r.length + 1 - 256
        · rw [if_pos h, if_pos (by omega),
            show 256 + (256 * s' + cellIdx p) = 256 * (s' + 1) + cellIdx p from by ring]
        · rw [if_neg h, if_neg (by omega)]

/-- C6.  For a bucket of N pending tiles the flush sheet loop produces
exactly ceil(N/256) sheets; sheet s holds the tiles with insertion
indices 256s .. 256s+255 placed row-major (16 cells of 8x8 pixels per
sheet row), and every pixel of every cell not filled by a tile is the
fully transparent value 0. -/
theorem c6_flush_sheet_packing (l : List DumpEntry) :
    (buildSheets l).length = (l.length + 255) / 256 ∧
    (∀ s p : Nat, s < (buildSheets l).length → p < 16384 →
      ((buildSheets l).getD s (fun _ => 0)) p =
        if 256 * s + cellIdx p < l.length
        then (l.getD (256 * s + cellIdx p) {}).px (pixIdx p)
        else 0) :=
  ⟨buildSheetsGo_length l.length l le_rfl,
   fun s p hs hp => buildSheetsGo_read l.length l le_rfl s p hs hp⟩

/-- Witness for C6 at a concrete one-tile bucket. -/
theorem c6_flush_sheet_packing_witness :
    ((buildSheets [{ px := fun _ => 7 }]).length = (1 + 255) / 256) ∧
    (0 : Nat) < (buildSheets [{ px := fun _ => 7 }]).length ∧
    ((buildSheets [{ px := fun _ => 7 }]).getD 0 (fun _ => 0)) 3 =
      if 256 * 0 + cellIdx 3 < 1
      then (([{ px := fun _ => 7 }] : List DumpEntry).getD (256 * 0 + cellIdx 3) {}).px
        (pixIdx 3)
      else 0 :=
  ⟨(c6_flush_sheet_packing [{ px := fun _ => 7 }]).1,
   by
    rw [(c6_flush_sheet_packing [{ px := fun _ => 7 }]).1]
    norm_num,
   (c6_flush_sheet_packing [{ px := fun _ => 7 }]).2 0 3
     (by
      rw [(c6_flush_sheet_packing [{ px := fun _ => 7 }]).1]
      norm_num)
     (by omega)⟩

/-! ## C7: the PNG encoder refines its stream-level description -/

/-- Four generator steps starting at the first byte of pixel `j` emit that
pixel's RGBA bytes and advance to the next pixel, wrapping to the next row
after the last pixel. -/
theorem pngGen_pixel (mem : Nat → Nat → Nat) (width y j : Nat) :
    pngGen mem width 4 y (1 + 4 * j) =
      ([mem y j >>> 16 &&& 255, mem y j >>> 8 &&& 255, mem y j &&& 255, mem y j >>> 24 &&& 255],
       if j + 1 = width then (y + 1, 0) else (y, 1 + 4 * (j + 1))) := by
  have h0a : ¬(1 + 4 * j = 0) := by omega
  have h0b : ¬(1 + 4 * j + 1 = 0) := by omega
  have h0c : ¬(1 + 4 * j + 1 + 1 = 0) := by omega
  have h0d : ¬(1 + 4 * j + 1 + 1 + 1 = 0) := by omega
  have hm0 : (1 + 4 * j - 1) % 4 = 0 := by omega
  have hm1 : (1 + 4 * j + 1 - 1) % 4 = 1 := by omega
  have hm2 : (1 + 4 * j + 1 + 1 - 1) % 4 = 2 := by omega
  have hm3 : (1 + 4 * j + 1 + 1 + 1 - 1) % 4 = 3 := by omega
  have hd0 : (1 + 4 * j - 1) / 4 = j := by omega
  have hd1 : (1 + 4 * j + 1 - 1) / 4 = j := by omega
  have hd2 : (1 + 4 * j + 1 + 1 - 1) / 4 = j := by omega
  have hd3 : (1 + 4 * j + 1 + 1 + 1 - 1) / 4 = j := by omega
  have hw0 : ¬(1 + 4 * j + 1 = pngRowBytes width) := by simp only [pngRowBytes]; omega
  have hw1 : ¬(1 + 4 * j + 1 + 1 = pngRowBytes width) := by simp only [pngRowBytes]; omega
  have hw2 : ¬(1 + 4 * j + 1 + 1 + 1 = pngRowBytes width) := by simp only [pngRowBytes]; omega
  have hw3 : (1 + 4 * j + 1 + 1 + 1 + 1 = pngRowBytes width) ↔ (j + 1 = width) := by
    simp only [pngRowBytes]; omega
  simp only [pngGen, h0a, h0b, h0c, h0d, hm0, hm1, hm2, hm3, hd0, hd1, hd2, hd3,
    hw0, hw1, hw2, hw3, if_false, if_true, ite_false, ite_true]
  norm_num
  by_cases hjw : j + 1 = width
  · simp [hjw]
  · simp [hjw]
    omega

theorem pngGen_append (mem : Nat → Nat → Nat) (width : Nat) :
    ∀ c1 c2 y pos,
    pngGen mem width (c1 + c2) y pos =
      ((pngGen mem width c1 y pos).1
        ++ (pngGen mem width c2 (pngGen mem width c1 y pos).2.1
              (pngGen mem width c1 y pos).2.2).1,
       (pngGen mem width c2 (pngGen mem width c1 y pos).2.1
          (pngGen mem width c1 y pos).2.2).2) := by
  intro c1
  induction c1 with
  | zero =>
    intro c2 y pos
    simp [pngGen]
  | succ n ih =>
    intro c2 y pos
    have hc : n + 1 + c2 = (n + c2) + 1 := by omega
    rw [hc]
    by_cases hp : pos = 0
    · simp only [pngGen, hp, if_pos, ite_true, if_true]
      rw [ih]
      simp
    · simp only [pngGen, hp, if_neg, ite_false, if_false]
      rw [ih]
      simp

theorem pngGen_length (mem : Nat → Nat → Nat) (width : Nat) :
    ∀ count y pos, (pngGen mem width count y pos).1.length = count := by
  intro count
  induction count with
  | zero => intro y pos; simp [pngGen]
  | succ n ih =>
    intro y pos
    by_cases hp : pos = 0
    · simp [pngGen, hp, ih]
    · simp [pngGen, hp, ih]

theorem pngGen_pixels (mem : Nat → Nat → Nat) (width y : Nat) :
    ∀ n j, j + n = width → 1 ≤ n →
    pngGen mem width (4 * n) y (1 + 4 * j) =
      ((List.range' j n).flatMap (fun x =>
        [mem y x >>> 16 &&& 255, mem y x >>> 8 &&& 255, mem y x &&& 255,
         mem y x >>> 24 &&& 255]),
       y + 1, 0) := by
  intro n
  induction n with
  | zero => intro j _ h1; omega
  | succ m ih =>
    intro j hj h1
    by_cases hm : m = 0
    · subst hm
      have hjw : j + 1 = width := by omega
      rw [show 4 * 1 = 4 from rfl, pngGen_pixel, if_pos hjw]
      simp [List.range']
    · have hsplit : 4 * (m + 1) = 4 + 4 * m := by ring
      rw [hsplit, pngGen_append, pngGen_pixel]
      have hjw : ¬(j + 1 = width) := by omega
      rw [if_neg hjw]
      simp only []
      rw [ih (j + 1) (by omega) (by omega)]
      rw [List.range'_succ]
      simp

theorem pngGen_row (mem : Nat → Nat → Nat) (width y : Nat) (hw : 1 ≤ width) :
    pngGen mem width (pngRowBytes width) y 0 = (pngRowSpec mem width y, y + 1, 0) := by
  have h : pngRowBytes width = 1 + 4 * width := by simp [pngRowBytes]; ring
  rw [h, pngGen_append]
  have h1 : pngGen mem width 1 y 0 = ([0], y, 1) := by
    rw [show (1 : Nat) = 0 + 1 from rfl, pngGen]
    simp [pngGen]
  rw [h1]
  simp only []
  rw [show (1 : Nat) = 1 + 4 * 0 from rfl, pngGen_pixels mem width y width 0 (by omega) hw]
  rw [pngRowSpec, List.range_eq_range']
  simp

theorem pngGen_rows (mem : Nat → Nat → Nat) (width : Nat) (hw : 1 ≤ width) :
    ∀ h y, pngGen mem width (pngRowBytes width * h) y 0 =
      ((List.range' y h).flatMap (pngRowSpec mem width), y + h, 0) := by
  intro h
  induction h with
  | zero => intro y; simp [pngGen]
  | succ m ih =>
    intro y
    have hsplit : pngRowBytes width * (m + 1) = pngRowBytes width + pngRowBytes width * m := by
      ring
    rw [hsplit, pngGen_append, pngGen_row mem width y hw]
    simp only []
    rw [ih (y + 1), List.range'_succ]
    simp
    omega

theorem chunksSpec_nil : chunksSpec [] = [] := by
  rw [chunksSpec]
  simp

theorem blocksSpec_step (l : List Nat) (hne : l ≠ []) :
    blocksSpec l = storeBlockHeader (decide (l.length ≤ 65535)) (l.take 65535).length
      ++ l.take 65535 ++ blocksSpec (l.drop 65535) := by
  conv_lhs => rw [blocksSpec, chunksSpec]
  rw [if_neg (by simp [List.isEmpty_iff, hne])]
  rw [List.flatMap_cons]
  simp [blocksSpec, List.append_assoc]

theorem pngBlocksGo_eq (mem : Nat → Nat → Nat) (width : Nat) :
    ∀ fuel remaining y pos, remaining ≤ fuel →
    pngBlocksGo mem width fuel remaining y pos =
      (blocksSpec (pngGen mem width remaining y pos).1,
       (pngGen mem width remaining y pos).1) := by
  intro fuel
  induction fuel with
  | zero =>
    intro remaining y pos hr
    have h0 : remaining = 0 := by omega
    subst h0
    simp [pngBlocksGo, pngGen, blocksSpec, chunksSpec_nil]
  | succ f ih =>
    intro remaining y pos hr
    by_cases h0 : remaining = 0
    · subst h0
      simp [pngBlocksGo, pngGen, blocksSpec, chunksSpec_nil]
    · have hchunk1 : 1 ≤ min remaining 65535 := by omega
      have hrest : remaining - min remaining 65535 ≤ f := by omega
      have hsplit : remaining = min remaining 65535 + (remaining - min remaining 65535) := by
        omega
      set chunk := min remaining 65535 with hc
      have hgen := pngGen_append mem width chunk (remaining - chunk) y pos
      rw [← hsplit] at hgen
      have hlen1 : (pngGen mem width chunk y pos).1.length = chunk :=
        pngGen_length mem width chunk y pos
      have hlen2 : (pngGen mem width (remaining - chunk)
          (pngGen mem width chunk y pos).2.1
          (pngGen mem width chunk y pos).2.2).1.length = remaining - chunk :=
        pngGen_length mem width _ _ _
      simp only [pngBlocksGo, if_neg h0, ← hc]
      rw [ih (remaining - chunk) (pngGen mem width chunk y pos).2.1
          (pngGen mem width chunk y pos).2.2 hrest]
      rw [hgen]
      have hne : (pngGen mem width chunk y pos).1
          ++ (pngGen mem width (remaining - chunk)
                (pngGen mem width chunk y pos).2.1
                (pngGen mem width chunk y pos).2.2).1 ≠ [] := by
        intro hnil
        rw [List.append_eq_nil] at hnil
        have := hlen1
        rw [hnil.1] at this
        simp at this
        omega
      rw [blocksSpec_step _ hne]
      have htake : ((pngGen mem width chunk y pos).1
          ++ (pngGen mem width (remaining - chunk)
                (pngGen mem width chunk y pos).2.1
                (pngGen mem width chunk y pos).2.2).1).take 65535
          = (pngGen mem width chunk y pos).1 := by
        by_cases hsmall : remaining ≤ 65535
        · have hz : remaining - chunk = 0 := by omega
          have hnil2 := List.length_eq_zero.mp (by rw [hlen2, hz])
          rw [hnil2, List.append_nil]
          exact List.take_of_length_le (by omega)
        · rw [List.take_append_of_le_length (by omega)]
          exact List.take_of_length_le (by omega)
      have hdrop : ((pngGen mem width chunk y pos).1
          ++ (pngGen mem width (remaining - chunk)
                (pngGen mem width chunk y pos).2.1
                (pngGen mem width chunk y pos).2.2).1).drop 65535
          = (pngGen mem width (remaining - chunk)
                (pngGen mem width chunk y pos).2.1
                (pngGen mem width chunk y pos).2.2).1 := by
        by_cases hsmall : remaining ≤ 65535
        · have hz : remaining - chunk = 0 := by omega
          have hnil2 := List.length_eq_zero.mp (by rw [hlen2, hz])
          rw [hnil2, List.append_nil]
          exact List.drop_eq_nil_of_le (by omega)
        · rw [show (65535 : Nat) = (pngGen mem width chunk y pos).1.length from by omega]
          exact List.drop_left _ _
      have hflag : decide (((pngGen mem width chunk y pos).1
          ++ (pngGen mem width (remaining - chunk)
                (pngGen mem width chunk y pos).2.1
                (pngGen mem width chunk y pos).2.2).1).length ≤ 65535)
          = decide (remaining = chunk) := by
        rw [List.length_append, hlen1, hlen2]
        exact decide_eq_decide.mpr (by omega)
      rw [htake, hdrop, hflag, hlen1]

theorem pngZlib_eq_spec (mem : Nat → Nat → Nat) (width height : Nat) (hw : 1 ≤ width) :
    pngZlib mem width height = pngZlibSpec mem width height := by
  have hdata : (pngGen mem width (pngRowBytes width * height) 0 0).1
      = pngDataSpec mem width height := by
    rw [pngGen_rows mem width hw height 0]
    rw [pngDataSpec, List.range_eq_range']
  rw [pngZlib, pngZlibSpec]
  rw [pngBlocksGo_eq mem width (pngRowBytes width * height) (pngRowBytes width * height) 0 0
    (le_refl _)]
  rw [hdata]

/-- C7: For every width >= 1, height >= 1 and pixel buffer, the zlib stream
the encoder assembles equals the specification-side description: stored
(uncompressed) deflate blocks each carrying at most 65535 bytes of the data
stream with only the last flagged final, the data stream exactly each row's
4*width RGBA bytes prefixed by a filter byte 0, the trailing checksum the
Adler-32 of that data stream; and the written file is the signature followed
by the IHDR, IDAT and IEND chunks, each framed by writeChunk with its length,
type, and a CRC over type plus data. -/
theorem c7_png_stream (mem : Nat → Nat → Nat) (width height : Nat)
    (hw : 1 ≤ width) (hh : 1 ≤ height) :
    pngZlib mem width height = pngZlibSpec mem width height ∧
    pngCreate mem width height = some (pngSignature
      ++ writeChunk typeIHDR (pngIhdrData width height)
      ++ writeChunk typeIDAT (pngZlibSpec mem width height)
      ++ writeChunk typeIEND []) := by
  refine ⟨pngZlib_eq_spec mem width height hw, ?_⟩
  rw [pngCreate, if_neg (by omega : ¬(width = 0 ∨ height = 0))]
  rw [pngZlib_eq_spec mem width height hw]

/-- Witness for C7: the 1-by-1 all-zero image. -/
theorem c7_png_stream_witness :
    pngZlib (fun _ _ => 0) 1 1 = pngZlibSpec (fun _ _ => 0) 1 1 ∧
    pngCreate (fun _ _ => 0) 1 1 = some (pngSignature
      ++ writeChunk typeIHDR (pngIhdrData 1 1)
      ++ writeChunk typeIDAT (pngZlibSpec (fun _ _ => 0) 1 1)
      ++ writeChunk typeIEND []) :=
  c7_png_stream (fun _ _ => 0) 1 1 (by decide) (by decide)

end BsnesHd
